import Mathlib

/-! # sql-evaluator: evaluation of a SQL WHERE predicate against one record

A shallow embedding of `sql_evaluator.go`.  Go's dynamically typed values
(`interface{}`) become the inductive `Value`, the parser's AST nodes become
`Expr`, the reflected struct becomes a list of declared fields, and every
`(bool, error)` result becomes an `Except EvalError Bool`.  A run-time panic of
the `reflect` package, which ends the evaluation with neither a boolean nor an
error, is the outcome `.error .reflectPanic`.

What the Go standard library computes on arbitrary text (`strconv.ParseFloat`,
`fmt.Sscanf`, `regexp.MatchString`, `unicode.ToTitle`) is taken as a parameter
`GoStd`, so that every theorem quantified over `std` holds whatever those
functions return.  `goStd` is a concrete instance used to evaluate the
definitions on concrete records.
-/

namespace SqlEvaluator

/-! ## float64 -/

/-- A Go `float64`.  A finite value is stored as the integer `k` with value
`k * 2^(-1074)`: every finite double is such a multiple of the smallest
subnormal, so equality and order are those of `k`.  Negative zero is identified
with zero (the program only compares floats, and `-0 == 0`). -/
inductive F64 where
  | nan
  | negInf
  | fin (k : Int)
  | posInf
  deriving DecidableEq, Repr

/-- Number of units `2^(-1074)` in `1.0`, that is `2^1074`. -/
def F64.unitsPerOne : Nat := 1 <<< 1074

/-- The value `1.0` in units. -/
def F64.one : Int := Int.ofNat F64.unitsPerOne

/-- Go's `a < b` on float64 (false as soon as one side is NaN). -/
def F64.lt : F64 → F64 → Bool
  | .nan, _ => false
  | _, .nan => false
  | .negInf, .negInf => false
  | .negInf, _ => true
  | _, .negInf => false
  | .posInf, _ => false
  | .fin _, .posInf => true
  | .fin x, .fin y => decide (x < y)

/-- Go's `a == b` on float64 (NaN differs from everything, itself included). -/
def F64.eq : F64 → F64 → Bool
  | .nan, _ => false
  | _, .nan => false
  | .negInf, .negInf => true
  | .posInf, .posInf => true
  | .fin x, .fin y => decide (x = y)
  | _, _ => false

/-- Go's `a <= b` on float64. -/
def F64.le (a b : F64) : Bool := F64.lt a b || F64.eq a b

/-- Go's `a > b` on float64. -/
def F64.gt (a b : F64) : Bool := F64.lt b a

/-- Go's `a >= b` on float64. -/
def F64.ge (a b : F64) : Bool := F64.le b a

/-- The loop of `floorLog2`: halve until below 2, counting. -/
def log2Loop : Nat → Nat → Nat → Nat
  | 0, _, acc => acc
  | fuel + 1, n, acc => if n < 2 then acc else log2Loop fuel (n / 2) (acc + 1)

/-- The position of the highest set bit of `n` (0 for `n = 0`). -/
def floorLog2 (n : Nat) : Nat := log2Loop n n 0

/-- Round `n / d` to the nearest integer, ties to even. -/
def roundHalfEven (n d : Nat) : Nat :=
  let q := n / d
  let r := n % d
  if d < 2 * r ∨ (2 * r = d ∧ q % 2 = 1) then q + 1 else q

/-- Round a natural number to 53 significant bits, ties to even: the integer
value of the nearest double. -/
def roundToMantissa (n : Nat) : Nat :=
  if n < 1 <<< 53 then n
  else
    let k := floorLog2 n - 52
    roundHalfEven n (1 <<< k) <<< k

/-- Go's conversion `float64(n)` of an `int` (64-bit, so never infinite). -/
def float64 : Int → F64
  | .ofNat a => .fin (Int.ofNat (roundToMantissa a) * F64.one)
  | .negSucc a => .fin (-(Int.ofNat (roundToMantissa (a + 1)) * F64.one))

/-! ## Values, errors, records -/

/-- A Go `interface{}` as the evaluator sees it: `nil`, one of the four dynamic
types its type switches know, or a value of any other dynamic type (named by
its `%T` text, with its contents abstracted to a number). -/
inductive Value where
  | null
  | int (n : Int)
  | float (f : F64)
  | str (s : String)
  | bool (b : Bool)
  | other (ty : String) (payload : Nat)
  deriving DecidableEq, Repr

/-- The `%T` text of a value. -/
def Value.typeName : Value → String
  | .null => "<nil>"
  | .int _ => "int"
  | .float _ => "float64"
  | .str _ => "string"
  | .bool _ => "bool"
  | .other ty _ => ty

/-- The errors built by `fmt.Errorf` in the source, one constructor per call
site family, carrying what the message prints.  The last constructor is no
error value: `reflectPanic` is the panic of `reflect.Value.Interface` on a value
obtained from an unexported field ("cannot return value obtained from
unexported field or method"); the evaluation is aborted there and returns
nothing. -/
inductive EvalError where
  | parseFailed
  | notSelect
  | unsupportedExpr (goType : String)
  | betweenNeedsTwoValues
  | unsupportedOperator (op : String)
  | likeLeftNotString
  | likeRightNotString
  | regexpFailed
  | unsupportedIsOperator (op : String)
  | intLiteral
  | floatLiteral
  | unsupportedSQLValType (t : Nat)
  | fieldNotFound (name : String)
  | typeMismatch (ta tb : String)
  | unsupportedCompareType (ta : String)
  | cannotConvert (ta tb : String)
  | unsupportedFieldNameExpr (goType : String)
  | reflectPanic
  deriving DecidableEq, Repr

/-- What a pointer field points to, by `reflect.Kind` of the pointee. -/
inductive Pointee where
  | kindInt (n : Int)
  | kindFloat64 (f : F64)
  | kindString (s : String)
  | kindBool (b : Bool)
  | kindOther (v : Value)
  deriving DecidableEq, Repr

/-- The content of a struct field: a pointer (nil or not), or a field of any
other kind, whose `Interface()` is the given value. -/
inductive FieldSlot where
  | ptr (target : Option Pointee)
  | direct (v : Value)
  deriving DecidableEq, Repr

/-- One declared field of the model struct: its Go name, the value of its
`json` tag (empty when it has none), its content, and whether the field is
exported (its name starts with an upper-case letter).  `reflect` finds an
unexported field by name and reads its kind, its nil-ness and, through `Int`,
`Float`, `String` and `Bool`, a basic value, but refuses `Interface()` on
it. -/
structure StructField where
  name : String
  jsonTag : String
  slot : FieldSlot
  exported : Bool
  deriving DecidableEq, Repr

/-- The model held by the evaluator: the struct's fields in declaration
order. -/
abbrev Model := List StructField

/-! ## The parser's AST -/

/-- The parser's `ValType` constants. -/
def StrVal : Nat := 0
/-- Integer literal. -/
def IntVal : Nat := 1
/-- Float literal. -/
def FloatVal : Nat := 2
/-- Hexadecimal number literal. -/
def HexNum : Nat := 3
/-- Hexadecimal string literal. -/
def HexVal : Nat := 4
/-- Bind variable. -/
def ValArg : Nat := 5
/-- Bit literal. -/
def BitVal : Nat := 6

/-- The operator strings of the parser. -/
def InStr : String := "in"
/-- Operator of NOT IN. -/
def NotInStr : String := "not in"
/-- Operator of BETWEEN. -/
def BetweenStr : String := "between"
/-- Operator of NOT BETWEEN. -/
def NotBetweenStr : String := "not between"

/-- The expression nodes of the parser that the evaluator distinguishes; every
other node kind is `Other`, with its `%T` text. -/
inductive Expr where
  | ColName (name : String)
  | SQLVal (type : Nat) (val : String)
  | BoolVal (b : Bool)
  | NullVal
  | ValTuple (items : List Expr)
  | ComparisonExpr (operator : String) (left right : Expr)
  | AndExpr (left right : Expr)
  | OrExpr (left right : Expr)
  | ParenExpr (inner : Expr)
  | RangeCond (operator : String) (left fromExpr toExpr : Expr)
  | IsExpr (operator : String) (inner : Expr)
  | NotExpr (inner : Expr)
  | Other (goType : String)

/-- The `%T` text of a node. -/
def Expr.typeName : Expr → String
  | .ColName _ => "*sqlparser.ColName"
  | .SQLVal _ _ => "*sqlparser.SQLVal"
  | .BoolVal _ => "sqlparser.BoolVal"
  | .NullVal => "*sqlparser.NullVal"
  | .ValTuple _ => "sqlparser.ValTuple"
  | .ComparisonExpr _ _ _ => "*sqlparser.ComparisonExpr"
  | .AndExpr _ _ => "*sqlparser.AndExpr"
  | .OrExpr _ _ => "*sqlparser.OrExpr"
  | .ParenExpr _ => "*sqlparser.ParenExpr"
  | .RangeCond _ _ _ _ => "*sqlparser.RangeCond"
  | .IsExpr _ _ => "*sqlparser.IsExpr"
  | .NotExpr _ => "*sqlparser.NotExpr"
  | .Other t => t

/-! ## The Go standard library -/

/-- What the evaluator takes from the Go standard library on arbitrary text.
`parseFloat s` is `strconv.ParseFloat(s, 64)` (`none` when it returns an
error), `sscanInt s` and `sscanFloat s` are `fmt.Sscanf(s, "%d", &n)` and
`fmt.Sscanf(s, "%f", &f)`, `matchString p s` is `regexp.MatchString(p, s)`
(`none` when the pattern does not compile) and `toTitle` is
`unicode.ToTitle`. -/
structure GoStd where
  toTitle : Char → Char
  parseFloat : String → Option F64
  sscanInt : String → Option Int
  sscanFloat : String → Option F64
  matchString : String → String → Option Bool

/-- Go's `strconv.ParseBool` (`none` when it returns an error). -/
def parseBool (s : String) : Option Bool :=
  if s ∈ ["1", "t", "T", "true", "TRUE", "True"] then some true
  else if s ∈ ["0", "f", "F", "false", "FALSE", "False"] then some false
  else none

/-- Go's `strings.Split(s, sep)` for a one-character separator, on the
characters of `s`. -/
def splitChars (sep : Char) : List Char → List (List Char)
  | [] => [[]]
  | c :: cs =>
    match splitChars sep cs with
    | [] => [[]]
    | p :: ps => if c = sep then [] :: p :: ps else (c :: p) :: ps

/-- Go's `unicode.IsSpace` above U+007F. -/
def isSpaceAboveASCII (r : Nat) : Bool :=
  r = 0x85 || r = 0xA0 || r = 0x1680 || (0x2000 ≤ r && r ≤ 0x200A) || r = 0x2028
    || r = 0x2029 || r = 0x202F || r = 0x205F || r = 0x3000

/-- The `isSeparator` of Go's `strings` package: ASCII letters, digits and the
underscore are not separators, every other ASCII character is; above ASCII a
letter or digit is not, and otherwise the spaces are (no space is a letter or
a digit, so above ASCII the separators are the spaces). -/
def isSeparator (c : Char) : Bool :=
  let r := c.toNat
  if r ≤ 0x7F then
    !((48 ≤ r && r ≤ 57) || (97 ≤ r && r ≤ 122) || (65 ≤ r && r ≤ 90) || r = 95)
  else isSpaceAboveASCII r

/-- The mapping loop of Go's `strings.Title`: a character is title-cased when
the character before it (a space at the start) is a separator. -/
def titleChars (std : GoStd) : Char → List Char → List Char
  | _, [] => []
  | prev, c :: cs => (if isSeparator prev then std.toTitle c else c) :: titleChars std c cs

/-- Go's `strings.Title`. -/
def Title (std : GoStd) (s : String) : String :=
  String.mk (titleChars std ' ' s.data)

/-- The field name tried first for a column: `strings.Split(sqlName, "_")`,
`strings.Title` on each part, `strings.Join(parts, "")`. -/
def mangle (std : GoStd) (sqlName : String) : String :=
  String.join ((splitChars '_' sqlName.data).map (fun p => Title std (String.mk p)))

/-- Go's `strings.ReplaceAll(s, old, new)` for a one-character `old`. -/
def replaceAll (s : String) (old : Char) (new : String) : String :=
  String.mk (s.data.flatMap (fun c => if c = old then new.data else [c]))

/-- Go's `strings.Compare` (for valid UTF-8 the order on bytes is the order on
code points). -/
def compareChars : List Char → List Char → Int
  | [], [] => 0
  | [], _ :: _ => -1
  | _ :: _, [] => 1
  | a :: as, b :: bs =>
    if a.toNat < b.toNat then -1 else if b.toNat < a.toNat then 1 else compareChars as bs

/-- Go's `strings.Compare` on strings. -/
def stringsCompare (a b : String) : Int := compareChars a.data b.data

/-! ## Field access -/

/-- Go's `reflect.Value.FieldByName` on the model struct: the declared field of
that name, if any. -/
def fieldByName (m : Model) (fieldName : String) : Option StructField :=
  m.find? (fun f => f.name = fieldName)

/-- Go's `reflect.Value.Interface` on a value obtained from a struct field (or
from the pointee of a pointer field): the value itself, or a panic when the
field is not exported. -/
def valueInterface (exported : Bool) (v : Value) : Except EvalError Value :=
  if exported then .ok v else .error .reflectPanic

/-- The source's `getFieldValue`.  A nil pointer and a pointer to an `int`,
`float64`, `string` or `bool` are read without `Interface()`, whether the field
is exported or not; the `default` case of the switch and a field that is no
pointer go through `Interface()`. -/
def getFieldValue (m : Model) (fieldName : String) : Except EvalError Value :=
  match fieldByName m fieldName with
  | none => .error (.fieldNotFound fieldName)
  | some field =>
    match field.slot with
    | .ptr none => .ok .null
    | .ptr (some (.kindInt n)) => .ok (.int n)
    | .ptr (some (.kindFloat64 f)) => .ok (.float f)
    | .ptr (some (.kindString s)) => .ok (.str s)
    | .ptr (some (.kindBool b)) => .ok (.bool b)
    | .ptr (some (.kindOther v)) => valueInterface field.exported v
    | .direct v => valueInterface field.exported v

/-- The source's `getFieldName`. -/
def getFieldName (std : GoStd) (m : Model) : Expr → Except EvalError String
  | .ColName sqlName =>
    let fieldName := mangle std sqlName
    match fieldByName m fieldName with
    | some _ => .ok fieldName
    | none =>
      match m.find? (fun f => f.jsonTag = sqlName) with
      | some field => .ok field.name
      | none => .error (.fieldNotFound sqlName)
  | expr => .error (.unsupportedFieldNameExpr expr.typeName)

/-- The source's `getValue`. -/
def getValue (std : GoStd) (m : Model) : Expr → Except EvalError Value
  | .ColName name => getFieldValue m name
  | .SQLVal type val =>
    if type = StrVal then .ok (.str val)
    else if type = IntVal then
      match std.sscanInt val with
      | some n => .ok (.int n)
      | none => .error .intLiteral
    else if type = FloatVal then
      match std.sscanFloat val with
      | some f => .ok (.float f)
      | none => .error .floatLiteral
    else if type = ValArg then .ok (.str val)
    else .error (.unsupportedSQLValType type)
  | .BoolVal b => .ok (.bool b)
  | .NullVal => .ok .null
  | expr => .error (.unsupportedExpr expr.typeName)

/-- The loop of the source's `getSQLValues`: the values of the entries in
order, or the first error. -/
def getValues (std : GoStd) (m : Model) : List Expr → Except EvalError (List Value)
  | [] => .ok []
  | val :: rest =>
    match getValue std m val with
    | .error e => .error e
    | .ok value =>
      match getValues std m rest with
      | .error e => .error e
      | .ok values => .ok (value :: values)

/-- The source's `getSQLValues`. -/
def getSQLValues (std : GoStd) (m : Model) : Expr → Except EvalError (List Value)
  | .ValTuple items => getValues std m items
  | expr => .error (.unsupportedExpr expr.typeName)

/-! ## Coercion and comparison -/

/-- The type switch of the source's `convertTypes`: the pair it returns from
inside the switch, or `none` when control falls out of the switch. -/
def convertSwitch (std : GoStd) : Value → Value → Option (Value × Value)
  | .int v1, .float v2 => some (.float (float64 v1), .float v2)
  | .int v1, .int v2 => some (.int v1, .int v2)
  | .int v1, .str v2 =>
    match std.parseFloat v2 with
    | some f => some (.float (float64 v1), .float f)
    | none => none
  | .float v1, .int v2 => some (.float v1, .float (float64 v2))
  | .float v1, .float v2 => some (.float v1, .float v2)
  | .float v1, .str v2 =>
    match std.parseFloat v2 with
    | some f => some (.float v1, .float f)
    | none => none
  | .str v1, .str v2 => some (.str v1, .str v2)
  | .str v1, .int v2 =>
    match std.parseFloat v1 with
    | some f => some (.float f, .float (float64 v2))
    | none => none
  | .str v1, .float v2 =>
    match std.parseFloat v1 with
    | some f => some (.float f, .float v2)
    | none => none
  | .bool v1, .bool v2 => some (.bool v1, .bool v2)
  | .bool v1, .str v2 =>
    match parseBool v2 with
    | some b => some (.bool v1, .bool b)
    | none => none
  | _, _ => none

/-- The source's `convertTypes`. -/
def convertTypes (std : GoStd) (a b : Value) : Except EvalError (Value × Value) :=
  if a = .null ∨ b = .null then .ok (a, b)
  else
    match convertSwitch std a b with
    | some pair => .ok pair
    | none =>
      if a.typeName = b.typeName then .ok (a, b)
      else .error (.cannotConvert a.typeName b.typeName)

/-- Go's `reflect.DeepEqual` on two values: same dynamic type and equal
contents. -/
def deepEqual : Value → Value → Bool
  | .null, .null => true
  | .int x, .int y => decide (x = y)
  | .float x, .float y => F64.eq x y
  | .str x, .str y => decide (x = y)
  | .bool x, .bool y => decide (x = y)
  | .other t1 p1, .other t2 p2 => decide (t1 = t2) && decide (p1 = p2)
  | _, _ => false

/-- The source's `compareValues`. -/
def compareValues (a b : Value) (compare : F64 → F64 → Bool) : Except EvalError Bool :=
  match a with
  | .int v1 =>
    match b with
    | .int v2 => .ok (compare (float64 v1) (float64 v2))
    | _ => .error (.typeMismatch a.typeName b.typeName)
  | .float v1 =>
    match b with
    | .float v2 => .ok (compare v1 v2)
    | _ => .error (.typeMismatch a.typeName b.typeName)
  | .str v1 =>
    match b with
    | .str v2 => .ok (compare (float64 (stringsCompare v1 v2)) (float64 0))
    | _ => .error (.typeMismatch a.typeName b.typeName)
  | .bool v1 =>
    match b with
    | .bool v2 => if v1 = v2 then .ok true else .ok false
    | _ => .error (.typeMismatch a.typeName b.typeName)
  | _ => .error (.unsupportedCompareType a.typeName)

/-- The source's `evaluateLike`. -/
def evaluateLike (std : GoStd) (left right : Value) : Except EvalError Bool :=
  match left with
  | .str leftStr =>
    match right with
    | .str rightStr =>
      let pattern := replaceAll rightStr '%' ".*"
      let pattern := replaceAll pattern '_' "."
      let pattern := "^" ++ pattern ++ "$"
      match std.matchString pattern leftStr with
      | some matched => .ok matched
      | none => .error .regexpFailed
    | _ => .error .likeRightNotString
  | _ => .error .likeLeftNotString

/-! ## The evaluator -/

/-- The membership loop shared by `evaluateInExpr` and the IN branch of
`evaluateComparison`: the final value of `found`. -/
def inLoop (std : GoStd) (leftVal : Value) : List Value → Bool
  | [] => false
  | val :: rest =>
    if val = .null then inLoop std leftVal rest
    else
      match convertTypes std leftVal val with
      | .ok (leftConverted, rightConverted) =>
        if deepEqual leftConverted rightConverted then true else inLoop std leftVal rest
      | .error _ => inLoop std leftVal rest

/-- The tail shared by `evaluateRange` and the BETWEEN branch of
`evaluateComparison`, from the test of the bounds against nil on. -/
def rangeTail (std : GoStd) (operator : String) (leftVal lower upper : Value) :
    Except EvalError Bool :=
  if lower = .null ∨ upper = .null then .ok false
  else
    match convertTypes std leftVal lower with
    | .error e => .error e
    | .ok (leftLower, lowerConverted) =>
      match convertTypes std leftVal upper with
      | .error e => .error e
      | .ok (leftUpper, upperConverted) =>
        match compareValues leftLower lowerConverted F64.ge with
        | .error e => .error e
        | .ok fromResult =>
          match compareValues leftUpper upperConverted F64.le with
          | .error e => .error e
          | .ok toResult =>
            let result := fromResult && toResult
            if operator = NotBetweenStr then .ok (!result) else .ok result

/-- The operator switch that ends the source's `evaluateComparison`. -/
def operatorSwitch (std : GoStd) (operator : String) (leftConverted rightConverted : Value) :
    Except EvalError Bool :=
  if operator = "=" then .ok (deepEqual leftConverted rightConverted)
  else if operator = "!=" ∨ operator = "<>" then .ok (!deepEqual leftConverted rightConverted)
  else if operator = ">" then compareValues leftConverted rightConverted F64.gt
  else if operator = ">=" then compareValues leftConverted rightConverted F64.ge
  else if operator = "<" then compareValues leftConverted rightConverted F64.lt
  else if operator = "<=" then compareValues leftConverted rightConverted F64.le
  else if operator = "like" then evaluateLike std leftConverted rightConverted
  else if operator = "not like" then
    match evaluateLike std leftConverted rightConverted with
    | .error e => .error e
    | .ok result => .ok (!result)
  else .error (.unsupportedOperator operator)

/-- The test `expr.Right.(*sqlparser.SQLVal)` with `sqlVal.Type == 0`. -/
def isSQLValOfTypeZero : Expr → Bool
  | .SQLVal type _ => decide (type = 0)
  | _ => false

/-- The source's `evaluateComparison`, for a comparison node with the given
operator and operands. -/
def evaluateComparison (std : GoStd) (m : Model) (operator : String) (left right : Expr) :
    Except EvalError Bool :=
  match getFieldName std m left with
  | .error e => .error e
  | .ok leftField =>
    match getFieldValue m leftField with
    | .error e => .error e
    | .ok leftVal =>
      if isSQLValOfTypeZero right ∧ operator = "is null" then .ok (decide (leftVal = .null))
      else if isSQLValOfTypeZero right ∧ operator = "is not null" then
        .ok (decide (leftVal ≠ .null))
      else if leftVal = .null then .ok false
      else if operator = InStr ∨ operator = NotInStr then
        match getSQLValues std m right with
        | .error e => .error e
        | .ok values =>
          let found := inLoop std leftVal values
          if operator = NotInStr then .ok (!found) else .ok found
      else if operator = BetweenStr ∨ operator = NotBetweenStr then
        match getSQLValues std m right with
        | .error e => .error e
        | .ok values =>
          match values with
          | [lower, upper] => rangeTail std operator leftVal lower upper
          | _ => .error .betweenNeedsTwoValues
      else
        match getValue std m right with
        | .error e => .error e
        | .ok rightVal =>
          if rightVal = .null then .ok false
          else
            match convertTypes std leftVal rightVal with
            | .error e => .error e
            | .ok (leftConverted, rightConverted) =>
              operatorSwitch std operator leftConverted rightConverted

/-- The source's `evaluateInExpr`. -/
def evaluateInExpr (std : GoStd) (m : Model) (operator : String) (left right : Expr) :
    Except EvalError Bool :=
  match getFieldName std m left with
  | .error e => .error e
  | .ok leftField =>
    match getFieldValue m leftField with
    | .error e => .error e
    | .ok leftVal =>
      if leftVal = .null then .ok false
      else
        match getSQLValues std m right with
        | .error e => .error e
        | .ok values =>
          let found := inLoop std leftVal values
          if operator = NotInStr then .ok (!found) else .ok found

/-- The source's `evaluateIsExpr`. -/
def evaluateIsExpr (std : GoStd) (m : Model) (operator : String) (inner : Expr) :
    Except EvalError Bool :=
  match getFieldName std m inner with
  | .error e => .error e
  | .ok leftField =>
    match getFieldValue m leftField with
    | .error e => .error e
    | .ok leftVal =>
      if operator = "is null" then .ok (decide (leftVal = .null))
      else if operator = "is not null" then .ok (decide (leftVal ≠ .null))
      else .error (.unsupportedIsOperator operator)

/-- The source's `evaluateRange`. -/
def evaluateRange (std : GoStd) (m : Model) (operator : String) (left fromExpr toExpr : Expr) :
    Except EvalError Bool :=
  match getFieldName std m left with
  | .error e => .error e
  | .ok leftField =>
    match getFieldValue m leftField with
    | .error e => .error e
    | .ok leftVal =>
      if leftVal = .null then .ok false
      else
        match getValue std m fromExpr with
        | .error e => .error e
        | .ok fromVal =>
          match getValue std m toExpr with
          | .error e => .error e
          | .ok toVal => rangeTail std operator leftVal fromVal toVal

/-- The source's `evaluateExpr`. -/
def evaluateExpr (std : GoStd) (m : Model) : Expr → Except EvalError Bool
  | .ComparisonExpr operator left right =>
    if operator = InStr ∨ operator = NotInStr then evaluateInExpr std m operator left right
    else evaluateComparison std m operator left right
  | .AndExpr l r =>
    match evaluateExpr std m l with
    | .error e => .error e
    | .ok left =>
      match evaluateExpr std m r with
      | .error e => .error e
      | .ok right => .ok (left && right)
  | .OrExpr l r =>
    match evaluateExpr std m l with
    | .error e => .error e
    | .ok left =>
      match evaluateExpr std m r with
      | .error e => .error e
      | .ok right => .ok (left || right)
  | .ParenExpr inner => evaluateExpr std m inner
  | .RangeCond operator left fromExpr toExpr => evaluateRange std m operator left fromExpr toExpr
  | .IsExpr operator inner => evaluateIsExpr std m operator inner
  | expr => .error (.unsupportedExpr expr.typeName)

/-- A parsed statement, as far as `EvaluateWhere` looks at it: a SELECT with
its optional WHERE expression, or any other statement. -/
inductive Statement where
  | Select (whereExpr : Option Expr)
  | OtherStatement

/-- The source's `EvaluateWhere`; `parse` is the SQL parser (`none` when it
returns an error). -/
def EvaluateWhere (std : GoStd) (parse : String → Option Statement) (m : Model)
    (whereClause : String) : Except EvalError Bool :=
  match parse ("SELECT * FROM `users` WHERE " ++ whereClause) with
  | none => .error .parseFailed
  | some .OtherStatement => .error .notSelect
  | some (.Select none) => .ok true
  | some (.Select (some expr)) => evaluateExpr std m expr

/-! ## A concrete standard library

`goStd` evaluates the library functions on the text the examples use: plain
decimal numerals, ASCII identifiers, and patterns made of literal characters,
`.` and starred single characters.  Outside that fragment it answers `none`
(or leaves a character unchanged), and no statement about `goStd` is made
there. -/

/-- The value of a non-empty string of decimal digits. -/
def digitsValue : List Char → Option Nat
  | [] => none
  | cs => cs.foldl (fun acc c =>
      match acc with
      | none => none
      | some n => if 48 ≤ c.toNat ∧ c.toNat ≤ 57 then some (n * 10 + (c.toNat - 48)) else none)
      (some 0)

/-- A signed decimal integer. -/
def signedDigits : List Char → Option Int
  | '-' :: ds => (digitsValue ds).map (fun n => -(n : Int))
  | '+' :: ds => (digitsValue ds).map (fun n => (n : Int))
  | ds => (digitsValue ds).map (fun n => (n : Int))

/-- The numeral `%d` scans, when it fits a 64-bit `int`. -/
def scanDecimalInt (s : String) : Option Int :=
  match signedDigits s.data with
  | some n => if -Int.ofNat (2 ^ 63) ≤ n ∧ n < Int.ofNat (2 ^ 63) then some n else none
  | none => none

/-- The double nearest to `num / den` units of `2^(-1074)`, in the same
units. -/
def roundUnits (num den : Nat) : Nat :=
  let q := num / den
  if q < 1 <<< 53 then roundHalfEven num den
  else
    let k := floorLog2 q - 52
    roundHalfEven num (den <<< k) <<< k

/-- The double nearest to `mant * 10^exp10`, when it is finite (below
`2^1024`, which is `2^2098` units). -/
def decimalToF64 (negative : Bool) (mant : Nat) (exp10 : Int) : Option F64 :=
  let units :=
    match exp10 with
    | .ofNat e => roundUnits (mant * 10 ^ e * F64.unitsPerOne) 1
    | .negSucc e => roundUnits (mant * F64.unitsPerOne) (10 ^ (e + 1))
  if units < 1 <<< 2098 then some (.fin (if negative then -Int.ofNat units else Int.ofNat units))
  else none

/-- Split the characters at the first one satisfying `p`. -/
def breakAt (p : Char → Bool) : List Char → List Char × List Char
  | [] => ([], [])
  | c :: cs => if p c then ([], c :: cs) else ((breakAt p cs).1.cons c, (breakAt p cs).2)

/-- A decimal numeral: digits, an optional fraction, an optional exponent. -/
def unsignedDecimal (negative : Bool) (cs : List Char) : Option F64 :=
  let (mantChars, expChars) := breakAt (fun c => c = 'e' || c = 'E') cs
  let (intChars, fracChars) := breakAt (fun c => c = '.') mantChars
  let fracDigits := fracChars.drop 1
  if intChars.isEmpty ∧ fracDigits.isEmpty then none
  else
    match digitsValue (intChars ++ fracDigits ++ ['0']) with
    | none => none
    | some mant10 =>
      match expChars with
      | [] => decimalToF64 negative (mant10 / 10) (-(fracDigits.length : Int))
      | _ :: es =>
        match signedDigits es with
        | none => none
        | some e => decimalToF64 negative (mant10 / 10) (e - (fracDigits.length : Int))

/-- A signed decimal numeral as a double. -/
def parseDecimalFloat (s : String) : Option F64 :=
  match s.data with
  | '-' :: cs => unsignedDecimal true cs
  | '+' :: cs => unsignedDecimal false cs
  | cs => unsignedDecimal false cs

/-- One item of a pattern in the fragment: a character class, starred or
not. -/
inductive ReItem where
  | one (any : Bool) (c : Char)
  | star (any : Bool) (c : Char)
  deriving DecidableEq, Repr

/-- Whether a character is in the class: `.` is every character but the line
feed, a literal is itself. -/
def classMatches (any : Bool) (lit c : Char) : Bool :=
  if any then c ≠ '\n' else c = lit

/-- The characters with a meaning of their own in a regular expression. -/
def isMetaChar (c : Char) : Bool :=
  c ∈ ['\\', '.', '+', '*', '?', '(', ')', '|', '[', ']', '{', '}', '^', '$']

/-- Read the body of a pattern of the fragment (a star may follow a class,
nothing may follow a star but the next class). -/
def readItems : List Char → Option (List ReItem)
  | [] => some []
  | [c] => if c ≠ '.' ∧ isMetaChar c then none else some [ReItem.one (c = '.') c]
  | c :: d :: rest =>
    if c ≠ '.' ∧ isMetaChar c then none
    else if d = '*' then
      match rest with
      | [] => some [ReItem.star (c = '.') c]
      | e :: _ =>
        if e = '*' ∨ e = '?' ∨ e = '+' then none
        else (readItems rest).map (fun items => ReItem.star (c = '.') c :: items)
    else (readItems (d :: rest)).map (fun items => ReItem.one (c = '.') c :: items)

/-- Match a starred class followed by `k`. -/
def matchStar (any : Bool) (lit : Char) (k : List Char → Bool) : List Char → Bool
  | [] => k []
  | c :: cs => k (c :: cs) || (classMatches any lit c && matchStar any lit k cs)

/-- Match the items against the whole text. -/
def matchItems : List ReItem → List Char → Bool
  | [] => fun s => s.isEmpty
  | .one any lit :: items => fun s =>
    match s with
    | [] => false
    | c :: cs => classMatches any lit c && matchItems items cs
  | .star any lit :: items => matchStar any lit (matchItems items)

/-- Strip a final `$`. -/
def dropFinalDollar : List Char → Option (List Char)
  | [] => none
  | ['$'] => some []
  | c :: cs => (dropFinalDollar cs).map (fun r => c :: r)

/-- The matcher on patterns `^body$` of the fragment. -/
def matchAnchored (pattern s : String) : Option Bool :=
  match pattern.data with
  | '^' :: rest =>
    match dropFinalDollar rest with
    | none => none
    | some body => (readItems body).map (fun items => matchItems items s.data)
  | _ => none

/-- The concrete standard library. -/
def goStd : GoStd where
  toTitle := fun c => if 97 ≤ c.toNat ∧ c.toNat ≤ 122 then Char.ofNat (c.toNat - 32) else c
  parseFloat := parseDecimalFloat
  sscanInt := scanDecimalInt
  sscanFloat := parseDecimalFloat
  matchString := matchAnchored

/-! ## Example records -/

/-- The test suite's `User` with every pointer field nil. -/
def userAllNil : Model :=
  [⟨"ID", "id", .ptr none, true⟩, ⟨"Name", "name", .ptr none, true⟩,
   ⟨"Age", "age", .ptr none, true⟩, ⟨"Salary", "salary", .ptr none, true⟩,
   ⟨"IsActive", "is_active", .ptr none, true⟩]

/-- The test suite's `User` with ID 1, Name "李四", Age 35, Salary 8000.75 and
IsActive true. -/
def userLiSi : Model :=
  [⟨"ID", "id", .ptr (some (.kindInt 1)), true⟩,
   ⟨"Name", "name", .ptr (some (.kindString "李四")), true⟩,
   ⟨"Age", "age", .ptr (some (.kindInt 35)), true⟩,
   ⟨"Salary", "salary", .ptr (some (.kindFloat64 (.fin (32003 <<< 1072)))), true⟩,
   ⟨"IsActive", "is_active", .ptr (some (.kindBool true)), true⟩]

/-- The test suite's `User` with every field holding its zero value. -/
def userZero : Model :=
  [⟨"ID", "id", .ptr (some (.kindInt 0)), true⟩,
   ⟨"Name", "name", .ptr (some (.kindString "")), true⟩,
   ⟨"Age", "age", .ptr (some (.kindInt 0)), true⟩,
   ⟨"Salary", "salary", .ptr (some (.kindFloat64 (.fin 0))), true⟩,
   ⟨"IsActive", "is_active", .ptr (some (.kindBool false)), true⟩]

/-- The test suite's `User` with the given field contents (`none` is a nil
pointer). -/
def mkUser (id : Option Int) (name : Option String) (age : Option Int) (salary : Option F64)
    (isActive : Option Bool) : Model :=
  [⟨"ID", "id", .ptr (id.map .kindInt), true⟩,
   ⟨"Name", "name", .ptr (name.map .kindString), true⟩,
   ⟨"Age", "age", .ptr (age.map .kindInt), true⟩,
   ⟨"Salary", "salary", .ptr (salary.map .kindFloat64), true⟩,
   ⟨"IsActive", "is_active", .ptr (isActive.map .kindBool), true⟩]

/-- A record whose type declares an exported field `ID int` tagged `id` and an
unexported field `name string` tagged `name`: the test suite's `UserWithNonPtr`
cut down to two fields, the second one spelled in lower case. -/
def userUnexportedName : Model :=
  [⟨"ID", "id", .direct (.int 1), true⟩, ⟨"name", "name", .direct (.str "张三"), false⟩]

/-- The same record type with pointer fields, as in the test suite's `User`:
`ID *int` tagged `id` and the unexported `name *string` tagged `name`. -/
def userUnexportedNamePtr : Model :=
  [⟨"ID", "id", .ptr (some (.kindInt 1)), true⟩,
   ⟨"name", "name", .ptr (some (.kindString "张三")), false⟩]

/-! ## Reference definitions in the words of the specification -/

/-- The reference matcher, `%` part: `k` holds on some suffix of the text. -/
def referenceLikeStar (k : List Char → Bool) : List Char → Bool
  | [] => k []
  | c :: cs => k (c :: cs) || referenceLikeStar k cs

/-- The reference wildcard matcher of the specification, on the characters of
the pattern and of the text: the pattern is anchored at both ends, `%` matches
zero or more of any character, `_` matches exactly one of any character, and
every other character matches only itself. -/
def referenceLike : List Char → List Char → Bool
  | [] => fun s => s.isEmpty
  | p :: ps =>
    if p = '%' then referenceLikeStar (referenceLike ps)
    else fun s =>
      match s with
      | [] => false
      | c :: cs => (p = '_' || c = p) && referenceLike ps cs

/-- Capitalize a segment, in the words of the specification: its first
character is upper-cased, the others are kept. -/
def capitalizeChars (std : GoStd) : List Char → List Char
  | [] => []
  | c :: cs => std.toTitle c :: cs

/-- The name the specification looks up first: split the identifier on `_`,
capitalize each segment, concatenate. -/
def specFieldName (std : GoStd) (id : String) : String :=
  String.join ((splitChars '_' id.data).map (fun p => String.mk (capitalizeChars std p)))

/-- The resolution order of the specification: the capitalized name if the
record has a field of that name, otherwise the first declared field whose tag
is the identifier verbatim, otherwise a field-not-found error naming the
identifier. -/
def specResolve (std : GoStd) (m : Model) (id : String) : Except EvalError String :=
  if m.any (fun f => f.name = specFieldName std id) then .ok (specFieldName std id)
  else
    match m.find? (fun f => f.jsonTag = id) with
    | some field => .ok field.name
    | none => .error (.fieldNotFound id)

/-- The UTF-8 encoding of a code point, as the list of its bytes. -/
def utf8EncodeNat (v : Nat) : List Nat :=
  if v < 0x80 then [v]
  else if v < 0x800 then [0xC0 + v / 64, 0x80 + v % 64]
  else if v < 0x10000 then [0xE0 + v / 4096, 0x80 + v / 64 % 64, 0x80 + v % 64]
  else [0xF0 + v / 262144, 0x80 + v / 4096 % 64, 0x80 + v / 64 % 64, 0x80 + v % 64]

/-- The bytes of a Go string holding the given characters. -/
def utf8Bytes (cs : List Char) : List Nat :=
  cs.flatMap (fun c => utf8EncodeNat c.toNat)

/-! ## Lemmas on field resolution and operand lists -/

theorem fieldByName_of_mem (m : Model) (f : StructField) (hf : f ∈ m) :
    ∃ g, fieldByName m f.name = some g := by
  unfold fieldByName
  cases h : m.find? (fun g => decide (g.name = f.name)) with
  | some g => exact ⟨g, rfl⟩
  | none =>
    rw [List.find?_eq_none] at h
    have := h f hf
    simp at this

theorem getFieldValue_of_fieldByName (m : Model) (fieldName : String) (g : StructField)
    (h : fieldByName m fieldName = some g) :
    (∃ v, getFieldValue m fieldName = .ok v) ∨
    (g.exported = false ∧ getFieldValue m fieldName = .error .reflectPanic) := by
  unfold getFieldValue
  rw [h]
  rcases g with ⟨n, t, slot, exported⟩
  rcases slot with (_ | p) | v
  · exact Or.inl ⟨_, rfl⟩
  · cases p with
    | kindOther v => cases exported <;> simp [valueInterface]
    | _ => exact Or.inl ⟨_, rfl⟩
  · cases exported <;> simp [valueInterface]

theorem getFieldValue_of_getFieldName (std : GoStd) (m : Model) (left : Expr) (field : String)
    (h : getFieldName std m left = .ok field) :
    (∃ v, getFieldValue m field = .ok v) ∨ getFieldValue m field = .error .reflectPanic := by
  have key : ∀ g, fieldByName m field = some g →
      (∃ v, getFieldValue m field = .ok v) ∨ getFieldValue m field = .error .reflectPanic := by
    intro g hg
    rcases getFieldValue_of_fieldByName m field g hg with h1 | h1
    · exact Or.inl h1
    · exact Or.inr h1.2
  revert key
  cases left with
  | ColName sqlName =>
    simp only [getFieldName] at h
    cases h1 : fieldByName m (mangle std sqlName) with
    | some g =>
      rw [h1] at h
      simp only [Except.ok.injEq] at h
      subst h
      intro key
      exact key g h1
    | none =>
      rw [h1] at h
      cases h2 : m.find? (fun f => decide (f.jsonTag = sqlName)) with
      | none => rw [h2] at h; cases h
      | some f =>
        rw [h2] at h
        simp only [Except.ok.injEq] at h
        subst h
        obtain ⟨g, hg⟩ := fieldByName_of_mem m f (List.mem_of_find?_eq_some h2)
        intro key
        exact key g hg
  | _ => simp [getFieldName] at h

theorem evaluateIsExpr_of_getFieldName (std : GoStd) (m : Model) (c field : String)
    (hname : getFieldName std m (.ColName c) = .ok field) :
    (∃ v, getFieldValue m field = .ok v ∧
      evaluateExpr std m (.IsExpr "is null" (.ColName c)) = .ok (decide (v = .null)) ∧
      evaluateExpr std m (.IsExpr "is not null" (.ColName c)) = .ok (!decide (v = .null))) ∨
    (getFieldValue m field = .error .reflectPanic ∧
      evaluateExpr std m (.IsExpr "is null" (.ColName c)) = .error .reflectPanic ∧
      evaluateExpr std m (.IsExpr "is not null" (.ColName c)) = .error .reflectPanic) := by
  rcases getFieldValue_of_getFieldName std m _ field hname with ⟨v, hv⟩ | hv
  · refine Or.inl ⟨v, hv, ?_, ?_⟩
    · simp [evaluateExpr, evaluateIsExpr, hname, hv]
    · simp [evaluateExpr, evaluateIsExpr, hname, hv]
  · refine Or.inr ⟨hv, ?_, ?_⟩
    · simp [evaluateExpr, evaluateIsExpr, hname, hv]
    · simp [evaluateExpr, evaluateIsExpr, hname, hv]

/-! ## Claims -/

/-- C1: when column `c` resolves to Null, every comparison `c op rhs` with op
among `=`, `!=`, `<`, `<=`, `>`, `>=`, LIKE, NOT LIKE, every `c IN (...)`,
`c NOT IN (...)`, `c BETWEEN a AND b` and `c NOT BETWEEN a AND b` evaluates to
false with no error, whatever the right-hand operands are. -/
theorem null_left_operand_is_false (std : GoStd) (m : Model) (c field : String)
    (hname : getFieldName std m (.ColName c) = .ok field)
    (hval : getFieldValue m field = .ok .null) :
    (∀ op ∈ ["=", "!=", "<", "<=", ">", ">=", "like", "not like"], ∀ rhs : Expr,
      evaluateExpr std m (.ComparisonExpr op (.ColName c) rhs) = .ok false) ∧
    (∀ rhs : Expr, evaluateExpr std m (.ComparisonExpr InStr (.ColName c) rhs) = .ok false) ∧
    (∀ rhs : Expr, evaluateExpr std m (.ComparisonExpr NotInStr (.ColName c) rhs) = .ok false) ∧
    (∀ a b : Expr, evaluateExpr std m (.RangeCond BetweenStr (.ColName c) a b) = .ok false) ∧
    (∀ a b : Expr,
      evaluateExpr std m (.RangeCond NotBetweenStr (.ColName c) a b) = .ok false) := by
  refine ⟨?_, ?_, ?_, ?_, ?_⟩
  · intro op hop rhs
    simp only [List.mem_cons, List.mem_singleton, List.not_mem_nil, or_false] at hop
    rcases hop with h | h | h | h | h | h | h | h <;> subst h <;>
      simp [evaluateExpr, evaluateComparison, hname, hval, InStr, NotInStr]
  · intro rhs
    simp [evaluateExpr, evaluateInExpr, hname, hval, InStr]
  · intro rhs
    simp [evaluateExpr, evaluateInExpr, hname, hval, InStr, NotInStr]
  · intro a b
    simp [evaluateExpr, evaluateRange, hname, hval]
  · intro a b
    simp [evaluateExpr, evaluateRange, hname, hval]

/-- C1 at the all-nil user: the hypotheses hold for column `age`, and
`age = 1` is false. -/
theorem null_left_operand_is_false_witness :
    getFieldName goStd userAllNil (.ColName "age") = .ok "Age" ∧
    getFieldValue userAllNil "Age" = .ok .null ∧
    evaluateExpr goStd userAllNil
      (.ComparisonExpr "=" (.ColName "age") (.SQLVal IntVal "1")) = .ok false :=
  ⟨rfl, rfl, (null_left_operand_is_false goStd userAllNil "age" "Age" rfl rfl).1 "="
    (by decide) _⟩

/-- C2 fails on the code.  In a record whose unexported field `name string`
carries the tag `name`, the field resolver resolves the column `name` to that
field (through the tag), and reading the field goes through
`reflect.Value.Interface`, which panics: `name IS NULL` and `name IS NOT NULL`
return neither a boolean nor an error.  When the same field is a `*string`, it
is read through `String()` and both tests return: false and true. -/
theorem is_null_test_unexported_field :
    getFieldName goStd userUnexportedName (.ColName "name") = .ok "name" ∧
    getFieldValue userUnexportedName "name" = .error .reflectPanic ∧
    evaluateExpr goStd userUnexportedName (.IsExpr "is null" (.ColName "name"))
      = .error .reflectPanic ∧
    evaluateExpr goStd userUnexportedName (.IsExpr "is not null" (.ColName "name"))
      = .error .reflectPanic ∧
    getFieldName goStd userUnexportedNamePtr (.ColName "name") = .ok "name" ∧
    evaluateExpr goStd userUnexportedNamePtr (.IsExpr "is null" (.ColName "name"))
      = .ok false ∧
    evaluateExpr goStd userUnexportedNamePtr (.IsExpr "is not null" (.ColName "name"))
      = .ok true :=
  ⟨rfl, rfl, rfl, rfl, rfl, rfl, rfl⟩

/-- C3: And/Or are strict.  `And(l, r)` and `Or(l, r)` return an error if and
only if `l` errors or `r` errors, the error of `l` being the one reported when
`l` errors; when both succeed the result is `l && r`, respectively `l || r`.
The right child is evaluated (its error is returned) even when the left child
alone already fixes the boolean. -/
theorem and_or_strict (std : GoStd) (m : Model) (l r : Expr) :
    ((∃ e, evaluateExpr std m (.AndExpr l r) = .error e) ↔
      ((∃ e, evaluateExpr std m l = .error e) ∨ (∃ e, evaluateExpr std m r = .error e))) ∧
    ((∃ e, evaluateExpr std m (.OrExpr l r) = .error e) ↔
      ((∃ e, evaluateExpr std m l = .error e) ∨ (∃ e, evaluateExpr std m r = .error e))) ∧
    evaluateExpr std m (.AndExpr l r) =
      (match evaluateExpr std m l, evaluateExpr std m r with
        | .error e, _ => .error e
        | .ok _, .error e => .error e
        | .ok a, .ok b => .ok (a && b)) ∧
    evaluateExpr std m (.OrExpr l r) =
      (match evaluateExpr std m l, evaluateExpr std m r with
        | .error e, _ => .error e
        | .ok _, .error e => .error e
        | .ok a, .ok b => .ok (a || b)) := by
  simp only [evaluateExpr]
  cases hl : evaluateExpr std m l <;> cases hr : evaluateExpr std m r <;> simp

/-- C4, as stated, fails: on the user 李四 the clause `(name = '李四' AND
age > 30)` is true, the clause `(name > 100 AND is_active = true)` alone
errors, and the disjunction of the two returns that error, not true. -/
theorem or_of_clauses_counterexample :
    evaluateExpr goStd userLiSi
      (.ParenExpr (.AndExpr (.ComparisonExpr "=" (.ColName "name") (.SQLVal StrVal "李四"))
        (.ComparisonExpr ">" (.ColName "age") (.SQLVal IntVal "30")))) = .ok true ∧
    evaluateExpr goStd userLiSi
      (.ParenExpr (.AndExpr (.ComparisonExpr ">" (.ColName "name") (.SQLVal IntVal "100"))
        (.ComparisonExpr "=" (.ColName "is_active") (.BoolVal true))))
      = .error (.cannotConvert "string" "int") ∧
    evaluateExpr goStd userLiSi
      (.OrExpr
        (.ParenExpr (.AndExpr (.ComparisonExpr "=" (.ColName "name") (.SQLVal StrVal "李四"))
          (.ComparisonExpr ">" (.ColName "age") (.SQLVal IntVal "30"))))
        (.ParenExpr (.AndExpr (.ComparisonExpr ">" (.ColName "name") (.SQLVal IntVal "100"))
          (.ComparisonExpr "=" (.ColName "is_active") (.BoolVal true)))))
      = .error (.cannotConvert "string" "int") := by
  refine ⟨?_, ?_, ?_⟩ <;> rfl

/-- C4, amended: a predicate `(A AND B) OR (C AND D)` evaluates to true whenever
both parenthesized clauses evaluate without error and at least one of them is
true; if a clause returns an error, the predicate returns that error (the first
clause's when both do), also when the other clause is true. -/
theorem or_of_clauses (std : GoStd) (m : Model) (A B C D : Expr) :
    (∀ x y : Bool, evaluateExpr std m (.ParenExpr (.AndExpr A B)) = .ok x →
      evaluateExpr std m (.ParenExpr (.AndExpr C D)) = .ok y → (x = true ∨ y = true) →
      evaluateExpr std m
        (.OrExpr (.ParenExpr (.AndExpr A B)) (.ParenExpr (.AndExpr C D))) = .ok true) ∧
    (∀ e : EvalError, evaluateExpr std m (.ParenExpr (.AndExpr A B)) = .error e →
      evaluateExpr std m
        (.OrExpr (.ParenExpr (.AndExpr A B)) (.ParenExpr (.AndExpr C D))) = .error e) ∧
    (∀ (x : Bool) (e : EvalError), evaluateExpr std m (.ParenExpr (.AndExpr A B)) = .ok x →
      evaluateExpr std m (.ParenExpr (.AndExpr C D)) = .error e →
      evaluateExpr std m
        (.OrExpr (.ParenExpr (.AndExpr A B)) (.ParenExpr (.AndExpr C D))) = .error e) := by
  refine ⟨?_, ?_, ?_⟩
  · intro x y hl hr h
    have e : evaluateExpr std m
        (.OrExpr (.ParenExpr (.AndExpr A B)) (.ParenExpr (.AndExpr C D))) = .ok (x || y) := by
      rw [evaluateExpr, hl, hr]
    rw [e]
    rcases h with h | h <;> simp [h]
  · intro e hl
    rw [evaluateExpr, hl]
  · intro x e hl hr
    rw [evaluateExpr, hl, hr]

/-- C4 amended, on the user 李四: both clauses of the test suite's complex
condition `(name = '李四' AND age > 30) OR (salary > 7000 AND is_active = true)`
evaluate to true, and so does the disjunction; in `(name = '李四' AND age > 30)
OR (name > 100 AND is_active = true)` the first clause is true, the second
returns a conversion error, and the disjunction returns that error. -/
theorem or_of_clauses_witness :
    evaluateExpr goStd userLiSi
      (.OrExpr
        (.ParenExpr (.AndExpr (.ComparisonExpr "=" (.ColName "name") (.SQLVal StrVal "李四"))
          (.ComparisonExpr ">" (.ColName "age") (.SQLVal IntVal "30"))))
        (.ParenExpr (.AndExpr (.ComparisonExpr ">" (.ColName "salary") (.SQLVal IntVal "7000"))
          (.ComparisonExpr "=" (.ColName "is_active") (.BoolVal true))))) = .ok true ∧
    evaluateExpr goStd userLiSi
      (.OrExpr
        (.ParenExpr (.AndExpr (.ComparisonExpr "=" (.ColName "name") (.SQLVal StrVal "李四"))
          (.ComparisonExpr ">" (.ColName "age") (.SQLVal IntVal "30"))))
        (.ParenExpr (.AndExpr (.ComparisonExpr ">" (.ColName "name") (.SQLVal IntVal "100"))
          (.ComparisonExpr "=" (.ColName "is_active") (.BoolVal true)))))
      = .error (.cannotConvert "string" "int") :=
  ⟨(or_of_clauses goStd userLiSi _ _ _ _).1 true true rfl rfl (Or.inl rfl),
    (or_of_clauses goStd userLiSi _ _ _ _).2.2 true _ rfl rfl⟩

/-- The comparison with an operator string that `evaluateComparison` does not
know, once the left column has a non-Null value. -/
theorem evaluateComparison_unknown_operator (std : GoStd) (m : Model) (op : String)
    (left right : Expr)
    (hop : op ∉ ["=", "!=", "<>", "<", "<=", ">", ">=", "like", "not like", "in", "not in",
      "between", "not between", "is null", "is not null"]) :
    evaluateExpr std m (.ComparisonExpr op left right) =
      (match getFieldName std m left with
        | .error e => .error e
        | .ok field =>
          match getFieldValue m field with
          | .error e => .error e
          | .ok leftVal =>
            if leftVal = .null then .ok false
            else
              match getValue std m right with
              | .error e => .error e
              | .ok rightVal =>
                if rightVal = .null then .ok false
                else
                  match convertTypes std leftVal rightVal with
                  | .error e => .error e
                  | .ok _ => .error (.unsupportedOperator op)) := by
  simp only [List.mem_cons, List.mem_singleton, List.not_mem_nil, or_false, not_or] at hop
  obtain ⟨h1, h2, h3, h4, h5, h6, h7, h8, h9, h10, h11, h12, h13, h14, h15⟩ := hop
  simp only [evaluateExpr, InStr, NotInStr, h10, h11, or_self, if_false]
  simp only [evaluateComparison, InStr, NotInStr, BetweenStr, NotBetweenStr, h10, h11, h12, h13,
    h14, h15, and_false, or_self, if_false]
  generalize getFieldName std m left = rf
  cases rf with
  | error e => rfl
  | ok field =>
    dsimp only
    generalize getFieldValue m field = rv
    cases rv with
    | error e => rfl
    | ok leftVal =>
      dsimp only
      by_cases hl : leftVal = .null
      · simp only [hl, if_true]
      · simp only [hl, if_false]
        generalize getValue std m right = rr
        cases rr with
        | error e => rfl
        | ok rightVal =>
          dsimp only
          by_cases hr : rightVal = .null
          · simp only [hr, if_true]
          · simp only [hr, if_false]
            generalize convertTypes std leftVal rightVal = rc
            cases rc with
            | error e => rfl
            | ok p =>
              simp [operatorSwitch, h1, h2, h3, h4, h5, h6, h7, h8, h9]

/-- C5, as stated, fails: with the unsupported operator `<=>`, a Null column
(`age <=> 5` on the all-nil user) and a NULL right operand (`age <=> NULL` on
the user 李四) both give false with no error. -/
theorem unsupported_operator_counterexample :
    evaluateExpr goStd userAllNil
      (.ComparisonExpr "<=>" (.ColName "age") (.SQLVal IntVal "5")) = .ok false ∧
    evaluateExpr goStd userLiSi
      (.ComparisonExpr "<=>" (.ColName "age") .NullVal) = .ok false :=
  ⟨rfl, rfl⟩

/-- C5, amended: a condition node whose kind is outside Comparison, And, Or,
Paren, Between and IsNull evaluates to an error; a comparison whose operator is
not one the evaluator knows never evaluates to true: it evaluates to an error
when the compared column and the right operand are both non-Null, and to false
with no error when the compared column is Null, or is non-Null while the right
operand is Null. -/
theorem unsupported_input (std : GoStd) (m : Model) :
    (∀ expr : Expr,
      (∀ op l r, expr ≠ .ComparisonExpr op l r) → (∀ l r, expr ≠ .AndExpr l r) →
      (∀ l r, expr ≠ .OrExpr l r) → (∀ i, expr ≠ .ParenExpr i) →
      (∀ op l a b, expr ≠ .RangeCond op l a b) → (∀ op i, expr ≠ .IsExpr op i) →
      evaluateExpr std m expr = .error (.unsupportedExpr expr.typeName)) ∧
    (∀ op : String,
      op ∉ ["=", "!=", "<>", "<", "<=", ">", ">=", "like", "not like", "in", "not in",
        "between", "not between", "is null", "is not null"] →
      ∀ left right : Expr,
        evaluateExpr std m (.ComparisonExpr op left right) ≠ .ok true ∧
        (∀ field v w, getFieldName std m left = .ok field → getFieldValue m field = .ok v →
          v ≠ .null → getValue std m right = .ok w → w ≠ .null →
          ∃ e, evaluateExpr std m (.ComparisonExpr op left right) = .error e) ∧
        (∀ field, getFieldName std m left = .ok field → getFieldValue m field = .ok .null →
          evaluateExpr std m (.ComparisonExpr op left right) = .ok false) ∧
        (∀ field v, getFieldName std m left = .ok field → getFieldValue m field = .ok v →
          v ≠ .null → getValue std m right = .ok .null →
          evaluateExpr std m (.ComparisonExpr op left right) = .ok false)) := by
  constructor
  · intro expr h1 h2 h3 h4 h5 h6
    cases expr with
    | ComparisonExpr op l r => exact absurd rfl (h1 op l r)
    | AndExpr l r => exact absurd rfl (h2 l r)
    | OrExpr l r => exact absurd rfl (h3 l r)
    | ParenExpr i => exact absurd rfl (h4 i)
    | RangeCond op l a b => exact absurd rfl (h5 op l a b)
    | IsExpr op i => exact absurd rfl (h6 op i)
    | _ => rfl
  · intro op hop left right
    rw [evaluateComparison_unknown_operator std m op left right hop]
    refine ⟨?_, ?_, ?_, ?_⟩
    · generalize getFieldName std m left = rf
      cases rf with
      | error e => simp
      | ok field =>
        dsimp only
        generalize getFieldValue m field = rv
        cases rv with
        | error e => simp
        | ok leftVal =>
          dsimp only
          split
          · simp
          · generalize getValue std m right = rr
            cases rr with
            | error e => simp
            | ok rightVal =>
              dsimp only
              split
              · simp
              · generalize convertTypes std leftVal rightVal = rc
                cases rc <;> simp
    · intro field v w hf hv hvn hw hwn
      simp only [hf, hv, hvn, hw, hwn, if_false]
      generalize convertTypes std v w = rc
      cases rc with
      | error e => exact ⟨e, rfl⟩
      | ok p => exact ⟨_, rfl⟩
    · intro field hf hv
      simp [hf, hv]
    · intro field v hf hv hvn hw
      simp [hf, hv, hvn, hw]

/-- C5 amended, on the user 李四: a NOT node is an error, and `age <=> 5`, with
both operands non-Null, is an error. -/
theorem unsupported_input_witness :
    evaluateExpr goStd userLiSi (.NotExpr (.IsExpr "is null" (.ColName "age")))
      = .error (.unsupportedExpr "*sqlparser.NotExpr") ∧
    ∃ e, evaluateExpr goStd userLiSi
      (.ComparisonExpr "<=>" (.ColName "age") (.SQLVal IntVal "5")) = .error e :=
  ⟨(unsupported_input goStd userLiSi).1 _ (by intros; simp) (by intros; simp)
      (by intros; simp) (by intros; simp) (by intros; simp) (by intros; simp),
    ((unsupported_input goStd userLiSi).2 "<=>" (by decide) (.ColName "age")
      (.SQLVal IntVal "5")).2.1 "Age" (.int 35) (.int 5) rfl rfl (by decide) rfl (by decide)⟩

theorem getValues_error_of_mem (std : GoStd) (m : Model) (x : Expr) (e : EvalError)
    (hx : getValue std m x = .error e) :
    ∀ items : List Expr, x ∈ items → ∃ e2, getValues std m items = .error e2 := by
  intro items
  induction items with
  | nil => intro h; cases h
  | cons y rest ih =>
    intro h
    rw [getValues]
    cases hy : getValue std m y with
    | error e1 => exact ⟨e1, rfl⟩
    | ok value =>
      have hne : x ≠ y := by
        intro hxy
        rw [hxy, hy] at hx
        cases hx
      have hmem : x ∈ rest := by
        rcases List.mem_cons.mp h with h1 | h1
        · exact absurd h1 hne
        · exact h1
      obtain ⟨e2, he2⟩ := ih hmem
      exact ⟨e2, by simp only [he2]⟩

theorem getFieldName_error (std : GoStd) (m : Model) (c : String) (e : EvalError)
    (h : getFieldName std m (.ColName c) = .error e) : e = .fieldNotFound c := by
  simp only [getFieldName] at h
  cases h1 : fieldByName m (mangle std c) with
  | some g => rw [h1] at h; cases h
  | none =>
    rw [h1] at h
    cases h2 : m.find? (fun f => decide (f.jsonTag = c)) with
    | some f => rw [h2] at h; cases h
    | none =>
      rw [h2] at h
      simp only [Except.error.injEq] at h
      exact h.symm

/-- C6, as stated, fails: on the all-nil user the column `nosuch` cannot be
resolved, yet `age = nosuch`, `age IN (nosuch)` and `age BETWEEN nosuch AND 3`
evaluate to false with no error, because `age` is Null. -/
theorem field_not_found_masked_counterexample :
    getFieldName goStd userAllNil (.ColName "nosuch") = .error (.fieldNotFound "nosuch") ∧
    getValue goStd userAllNil (.ColName "nosuch") = .error (.fieldNotFound "nosuch") ∧
    evaluateExpr goStd userAllNil
      (.ComparisonExpr "=" (.ColName "age") (.ColName "nosuch")) = .ok false ∧
    evaluateExpr goStd userAllNil
      (.ComparisonExpr InStr (.ColName "age") (.ValTuple [.ColName "nosuch"])) = .ok false ∧
    evaluateExpr goStd userAllNil
      (.RangeCond BetweenStr (.ColName "age") (.ColName "nosuch") (.SQLVal IntVal "3"))
      = .ok false :=
  ⟨rfl, rfl, rfl, rfl, rfl⟩

/-- C6, amended: a comparison, IN or BETWEEN condition whose left column the
field resolver cannot resolve returns the field-not-found error; and when the
left column resolves to a non-Null value, a condition that references, as right
operand, bound or list entry, an identifier that names no field of the record
(neither through the field resolver nor verbatim) returns an error and no
boolean. -/
theorem field_not_found_not_masked (std : GoStd) (m : Model) :
    (∀ c : String, (∃ e, getFieldName std m (.ColName c) = .error e) →
      (∀ op rhs, evaluateExpr std m (.ComparisonExpr op (.ColName c) rhs)
        = .error (.fieldNotFound c)) ∧
      (∀ op a b, evaluateExpr std m (.RangeCond op (.ColName c) a b)
        = .error (.fieldNotFound c))) ∧
    (∀ (c field : String) (v : Value) (id : String),
      getFieldName std m (.ColName c) = .ok field → getFieldValue m field = .ok v →
      v ≠ .null → (∃ e, getFieldName std m (.ColName id) = .error e) →
      fieldByName m id = none →
      (∀ op ∈ ["=", "!=", "<", "<=", ">", ">=", "like", "not like"],
        evaluateExpr std m (.ComparisonExpr op (.ColName c) (.ColName id))
          = .error (.fieldNotFound id)) ∧
      (∀ op ∈ [InStr, NotInStr], ∀ items : List Expr, .ColName id ∈ items →
        ∃ e, evaluateExpr std m (.ComparisonExpr op (.ColName c) (.ValTuple items))
          = .error e) ∧
      (∀ op a b, a = .ColName id ∨ b = .ColName id →
        ∃ e, evaluateExpr std m (.RangeCond op (.ColName c) a b) = .error e)) := by
  constructor
  · rintro c ⟨e, he⟩
    have := getFieldName_error std m c e he
    subst this
    constructor
    · intro op rhs
      simp only [evaluateExpr, evaluateInExpr, evaluateComparison, he]
      split <;> rfl
    · intro op a b
      simp only [evaluateExpr, evaluateRange, he]
  · intro c field v id hname hval hv _ hid
    have hright : getValue std m (.ColName id) = .error (.fieldNotFound id) := by
      simp only [getValue, getFieldValue, hid]
    refine ⟨?_, ?_, ?_⟩
    · intro op hop
      simp only [List.mem_cons, List.mem_singleton, List.not_mem_nil, or_false] at hop
      rcases hop with h | h | h | h | h | h | h | h <;> subst h <;>
        simp [evaluateExpr, evaluateComparison, hname, hval, hv, hright, InStr, NotInStr,
          BetweenStr, NotBetweenStr, isSQLValOfTypeZero]
    · intro op hop items hmem
      obtain ⟨e2, he2⟩ := getValues_error_of_mem std m _ _ hright items hmem
      have hop2 : op = InStr ∨ op = NotInStr := by
        simpa only [List.mem_cons, List.mem_singleton, List.not_mem_nil, or_false] using hop
      refine ⟨e2, ?_⟩
      simp only [evaluateExpr, hop2, if_true, evaluateInExpr, hname, hval, hv, if_false,
        getSQLValues, he2]
    · intro op a b hab
      simp only [evaluateExpr, evaluateRange, hname, hval, hv, if_false]
      rcases hab with h | h
      · subst h
        exact ⟨.fieldNotFound id, by simp only [hright]⟩
      · subst h
        cases ha : getValue std m a with
        | error e => exact ⟨e, rfl⟩
        | ok fromVal => exact ⟨.fieldNotFound id, by simp only [hright]⟩

/-- C6 amended, on the user 李四: `nosuch` names no field, `age` is 35, and
`age = nosuch` returns the field-not-found error. -/
theorem field_not_found_not_masked_witness :
    getFieldName goStd userLiSi (.ColName "age") = .ok "Age" ∧
    getFieldValue userLiSi "Age" = .ok (.int 35) ∧
    getFieldName goStd userLiSi (.ColName "nosuch") = .error (.fieldNotFound "nosuch") ∧
    fieldByName userLiSi "nosuch" = none ∧
    evaluateExpr goStd userLiSi (.ComparisonExpr "=" (.ColName "age") (.ColName "nosuch"))
      = .error (.fieldNotFound "nosuch") :=
  ⟨rfl, rfl, rfl, rfl,
    ((field_not_found_not_masked goStd userLiSi).2 "age" "Age" (.int 35) "nosuch" rfl rfl
      (by decide) ⟨_, rfl⟩ rfl).1 "=" (by decide)⟩

theorem inLoop_false_of_no_coercion (std : GoStd) (v : Value) :
    ∀ values : List Value,
      (∀ w ∈ values, w ≠ .null → ∃ e, convertTypes std v w = .error e) →
      inLoop std v values = false := by
  intro values
  induction values with
  | nil => intro _; rfl
  | cons w rest ih =>
    intro h
    have hrest := ih (fun x hx => h x (List.mem_cons_of_mem _ hx))
    rw [inLoop]
    by_cases hw : w = .null
    · simp only [hw, if_true, hrest]
    · obtain ⟨e, he⟩ := h w (List.mem_cons_self _ _) hw
      simp only [hw, if_false, he, hrest]

/-- C7, as stated, fails: on the user 李四, coercing the Boolean `is_active`
against the list entry 1 fails with a conversion error, yet `is_active IN (1)`
returns false and `is_active NOT IN (1)` returns true, with no error. -/
theorem coercion_error_in_list_counterexample :
    convertTypes goStd (.bool true) (.int 1) = .error (.cannotConvert "bool" "int") ∧
    evaluateExpr goStd userLiSi
      (.ComparisonExpr InStr (.ColName "is_active") (.ValTuple [.SQLVal IntVal "1"]))
      = .ok false ∧
    evaluateExpr goStd userLiSi
      (.ComparisonExpr NotInStr (.ColName "is_active") (.ValTuple [.SQLVal IntVal "1"]))
      = .ok true :=
  ⟨rfl, rfl, rfl⟩

/-- C7, amended: for a column with a non-Null value, a failure of a sub-step of
a comparison or BETWEEN (evaluation of the right operand, coercion against it,
the comparison itself, coercion against a bound) is returned as the error of
the evaluation; in `c IN (...)` and `c NOT IN (...)` a failed coercion of the
left value against a non-null list entry is not an error but a non-match: when
it fails for every non-null entry, IN is false and NOT IN is true. -/
theorem sub_step_errors (std : GoStd) (m : Model) (c field : String) (v : Value)
    (hname : getFieldName std m (.ColName c) = .ok field)
    (hval : getFieldValue m field = .ok v) (hv : v ≠ .null) :
    (∀ op ∈ ["=", "!=", "<", "<=", ">", ">=", "like", "not like"], ∀ (rhs : Expr) (e : EvalError),
      getValue std m rhs = .error e →
      evaluateExpr std m (.ComparisonExpr op (.ColName c) rhs) = .error e) ∧
    (∀ op ∈ ["=", "!=", "<", "<=", ">", ">=", "like", "not like"],
      ∀ (rhs : Expr) (w : Value) (e : EvalError),
      getValue std m rhs = .ok w → w ≠ .null → convertTypes std v w = .error e →
      evaluateExpr std m (.ComparisonExpr op (.ColName c) rhs) = .error e) ∧
    (∀ op ∈ ["=", "!=", "<", "<=", ">", ">=", "like", "not like"],
      ∀ (rhs : Expr) (w l r : Value) (e : EvalError),
      getValue std m rhs = .ok w → w ≠ .null → convertTypes std v w = .ok (l, r) →
      operatorSwitch std op l r = .error e →
      evaluateExpr std m (.ComparisonExpr op (.ColName c) rhs) = .error e) ∧
    (∀ (op : String) (a b : Expr) (x y : Value) (e : EvalError),
      getValue std m a = .ok x → getValue std m b = .ok y → x ≠ .null → y ≠ .null →
      (convertTypes std v x = .error e ∨
        ((∃ p, convertTypes std v x = .ok p) ∧ convertTypes std v y = .error e)) →
      evaluateExpr std m (.RangeCond op (.ColName c) a b) = .error e) ∧
    (∀ (items : List Expr) (values : List Value),
      getValues std m items = .ok values →
      (∀ w ∈ values, w ≠ .null → ∃ e, convertTypes std v w = .error e) →
      evaluateExpr std m (.ComparisonExpr InStr (.ColName c) (.ValTuple items)) = .ok false ∧
      evaluateExpr std m (.ComparisonExpr NotInStr (.ColName c) (.ValTuple items))
        = .ok true) := by
  refine ⟨?_, ?_, ?_, ?_, ?_⟩
  · intro op hop rhs e hr
    simp only [List.mem_cons, List.mem_singleton, List.not_mem_nil, or_false] at hop
    rcases hop with h | h | h | h | h | h | h | h <;> subst h <;>
      simp [evaluateExpr, evaluateComparison, hname, hval, hv, hr, InStr, NotInStr,
        BetweenStr, NotBetweenStr]
  · intro op hop rhs w e hr hw hc
    simp only [List.mem_cons, List.mem_singleton, List.not_mem_nil, or_false] at hop
    rcases hop with h | h | h | h | h | h | h | h <;> subst h <;>
      simp [evaluateExpr, evaluateComparison, hname, hval, hv, hr, hw, hc, InStr, NotInStr,
        BetweenStr, NotBetweenStr]
  · intro op hop rhs w l r e hr hw hc hs
    simp only [List.mem_cons, List.mem_singleton, List.not_mem_nil, or_false] at hop
    rcases hop with h | h | h | h | h | h | h | h <;> subst h <;>
      simp [evaluateExpr, evaluateComparison, hname, hval, hv, hr, hw, hc, hs, InStr, NotInStr,
        BetweenStr, NotBetweenStr]
  · intro op a b x y e ha hb hx hy hc
    simp only [evaluateExpr, evaluateRange, hname, hval, hv, if_false, ha, hb, rangeTail, hx, hy,
      or_self]
    rcases hc with hc | ⟨⟨p, hp⟩, hc⟩
    · simp only [hc]
    · simp only [hp, hc]
  · intro items values hvals hall
    have hloop := inLoop_false_of_no_coercion std v values hall
    constructor
    · simp [evaluateExpr, evaluateInExpr, hname, hval, hv, getSQLValues, hvals, hloop, InStr,
        NotInStr]
    · simp [evaluateExpr, evaluateInExpr, hname, hval, hv, getSQLValues, hvals, hloop, InStr,
        NotInStr]

/-- C7 amended, on the user 李四: `name > 100` returns the conversion error of
coercing the text against 100. -/
theorem sub_step_errors_witness :
    getFieldName goStd userLiSi (.ColName "name") = .ok "Name" ∧
    getFieldValue userLiSi "Name" = .ok (.str "李四") ∧
    evaluateExpr goStd userLiSi (.ComparisonExpr ">" (.ColName "name") (.SQLVal IntVal "100"))
      = .error (.cannotConvert "string" "int") :=
  ⟨rfl, rfl,
    (sub_step_errors goStd userLiSi "name" "Name" (.str "李四") rfl rfl (by decide)).2.1 ">"
      (by decide) (.SQLVal IntVal "100") (.int 100) _ rfl (by decide) rfl⟩

/-- C8, as stated, fails: on the user 李四 (age 35) the lower bound of
`age BETWEEN NULL AND 0x1F` is the NULL literal, yet the evaluation returns the
error of evaluating the hexadecimal upper bound, not false. -/
theorem null_bound_counterexample :
    getFieldValue userLiSi "Age" = .ok (.int 35) ∧
    evaluateExpr goStd userLiSi
      (.RangeCond BetweenStr (.ColName "age") .NullVal (.SQLVal HexNum "0x1F"))
      = .error (.unsupportedSQLValType 3) :=
  ⟨rfl, rfl⟩

/-- C8, amended: when column `c` is non-Null, `c op NULL` evaluates to false
with no error for every op among `=`, `!=`, `<`, `<=`, `>`, `>=`, LIKE and
NOT LIKE, and `c BETWEEN a AND b` and `c NOT BETWEEN a AND b` evaluate to false
whenever one of `a`, `b` is the NULL literal and the other bound evaluates
without error. -/
theorem null_right_operand_is_false (std : GoStd) (m : Model) (c field : String) (v : Value)
    (hname : getFieldName std m (.ColName c) = .ok field)
    (hval : getFieldValue m field = .ok v) (hv : v ≠ .null) :
    (∀ op ∈ ["=", "!=", "<", "<=", ">", ">=", "like", "not like"],
      evaluateExpr std m (.ComparisonExpr op (.ColName c) .NullVal) = .ok false) ∧
    (∀ op ∈ [BetweenStr, NotBetweenStr], ∀ (b : Expr) (y : Value),
      getValue std m b = .ok y →
      evaluateExpr std m (.RangeCond op (.ColName c) .NullVal b) = .ok false) ∧
    (∀ op ∈ [BetweenStr, NotBetweenStr], ∀ (a : Expr) (x : Value),
      getValue std m a = .ok x →
      evaluateExpr std m (.RangeCond op (.ColName c) a .NullVal) = .ok false) := by
  refine ⟨?_, ?_, ?_⟩
  · intro op hop
    simp only [List.mem_cons, List.mem_singleton, List.not_mem_nil, or_false] at hop
    rcases hop with h | h | h | h | h | h | h | h <;> subst h <;>
      simp [evaluateExpr, evaluateComparison, hname, hval, hv, getValue, InStr, NotInStr,
        BetweenStr, NotBetweenStr, isSQLValOfTypeZero]
  · intro op _ b y hb
    have hnull : getValue std m .NullVal = .ok .null := rfl
    simp [evaluateExpr, evaluateRange, hname, hval, hv, hnull, hb, rangeTail]
  · intro op _ a x ha
    have hnull : getValue std m .NullVal = .ok .null := rfl
    simp [evaluateExpr, evaluateRange, hname, hval, hv, hnull, ha, rangeTail]

/-- C8 amended, on the user 李四: `age = NULL` and `age BETWEEN NULL AND 30`
are false. -/
theorem null_right_operand_is_false_witness :
    getFieldName goStd userLiSi (.ColName "age") = .ok "Age" ∧
    getFieldValue userLiSi "Age" = .ok (.int 35) ∧
    evaluateExpr goStd userLiSi (.ComparisonExpr "=" (.ColName "age") .NullVal) = .ok false ∧
    evaluateExpr goStd userLiSi
      (.RangeCond BetweenStr (.ColName "age") .NullVal (.SQLVal IntVal "30")) = .ok false :=
  ⟨rfl, rfl,
    (null_right_operand_is_false goStd userLiSi "age" "Age" (.int 35) rfl rfl (by decide)).1 "="
      (by decide),
    (null_right_operand_is_false goStd userLiSi "age" "Age" (.int 35) rfl rfl (by decide)).2.1
      BetweenStr (by decide) (.SQLVal IntVal "30") (.int 30) rfl⟩

/-- C9: empty is not Null.  For a column whose field holds a present zero value
(Text "", Integer 0, Float 0.0, Boolean false), `c = <that zero literal>` is
true, `c IS NULL` is false and `c IS NOT NULL` is true; and for a column whose
field is Null, `c = ''` is false.  The literals `0` and `0.0` are scanned by
`fmt.Sscanf` to 0 and 0.0. -/
theorem empty_is_not_null (std : GoStd) (m : Model) (c field : String)
    (hname : getFieldName std m (.ColName c) = .ok field)
    (hint : std.sscanInt "0" = some 0) (hfloat : std.sscanFloat "0.0" = some (.fin 0)) :
    (∀ (zero : Value) (lit : Expr),
      (zero, lit) ∈ [(Value.str "", Expr.SQLVal StrVal ""), (Value.int 0, Expr.SQLVal IntVal "0"),
        (Value.float (.fin 0), Expr.SQLVal FloatVal "0.0"), (Value.bool false, Expr.BoolVal false)] →
      getFieldValue m field = .ok zero →
      evaluateExpr std m (.ComparisonExpr "=" (.ColName c) lit) = .ok true ∧
      evaluateExpr std m (.IsExpr "is null" (.ColName c)) = .ok false ∧
      evaluateExpr std m (.IsExpr "is not null" (.ColName c)) = .ok true) ∧
    (getFieldValue m field = .ok .null →
      evaluateExpr std m (.ComparisonExpr "=" (.ColName c) (.SQLVal StrVal "")) = .ok false) := by
  constructor
  · intro zero lit hmem hval
    simp only [List.mem_cons, List.mem_singleton, List.not_mem_nil, or_false, Prod.mk.injEq] at hmem
    rcases hmem with ⟨h1, h2⟩ | ⟨h1, h2⟩ | ⟨h1, h2⟩ | ⟨h1, h2⟩ <;> subst h1 <;> subst h2 <;>
      simp [evaluateExpr, evaluateComparison, evaluateIsExpr, hname, hval, getValue, hint, hfloat,
        convertTypes, convertSwitch, operatorSwitch, deepEqual, F64.eq, InStr, NotInStr,
        BetweenStr, NotBetweenStr, isSQLValOfTypeZero, StrVal, IntVal, FloatVal]
  · intro hval
    simp [evaluateExpr, evaluateComparison, hname, hval, InStr, NotInStr]

/-- C9 on the zero-valued user: `salary = 0.0` is true, `salary IS NULL` is
false and `salary IS NOT NULL` is true. -/
theorem empty_is_not_null_witness :
    getFieldName goStd userZero (.ColName "salary") = .ok "Salary" ∧
    goStd.sscanInt "0" = some 0 ∧ goStd.sscanFloat "0.0" = some (.fin 0) ∧
    getFieldValue userZero "Salary" = .ok (.float (.fin 0)) ∧
    evaluateExpr goStd userZero (.ComparisonExpr "=" (.ColName "salary") (.SQLVal FloatVal "0.0"))
      = .ok true ∧
    evaluateExpr goStd userZero (.IsExpr "is null" (.ColName "salary")) = .ok false ∧
    evaluateExpr goStd userZero (.IsExpr "is not null" (.ColName "salary")) = .ok true :=
  ⟨rfl, rfl, rfl, rfl,
    (empty_is_not_null goStd userZero "salary" "Salary" rfl rfl rfl).1 (.float (.fin 0))
      (.SQLVal FloatVal "0.0") (by simp) rfl⟩

theorem inLoop_eq_true_iff (std : GoStd) (v : Value) :
    ∀ values : List Value,
      inLoop std v values = true ↔
        ∃ w ∈ values, w ≠ .null ∧
          ∃ l r, convertTypes std v w = .ok (l, r) ∧ deepEqual l r = true := by
  intro values
  induction values with
  | nil => simp [inLoop]
  | cons x rest ih =>
    rw [inLoop]
    by_cases hx : x = .null
    · simp only [hx, if_true, ih]
      constructor
      · rintro ⟨w, hw, hrest⟩
        exact ⟨w, List.mem_cons_of_mem _ hw, hrest⟩
      · rintro ⟨w, hw, hne, hrest⟩
        rcases List.mem_cons.mp hw with h | h
        · exact absurd h hne
        · exact ⟨w, h, hne, hrest⟩
    · simp only [hx, if_false]
      cases hc : convertTypes std v x with
      | error e =>
        show inLoop std v rest = true ↔ _
        rw [ih]
        constructor
        · rintro ⟨w, hw, hrest⟩
          exact ⟨w, List.mem_cons_of_mem _ hw, hrest⟩
        · rintro ⟨w, hw, hne, l, r, hlr, heq⟩
          rcases List.mem_cons.mp hw with h | h
          · rw [h, hc] at hlr
            cases hlr
          · exact ⟨w, h, hne, l, r, hlr, heq⟩
      | ok p =>
        obtain ⟨l0, r0⟩ := p
        show (if deepEqual l0 r0 = true then true else inLoop std v rest) = true ↔ _
        by_cases hd : deepEqual l0 r0 = true
        · simp only [hd, if_true, true_iff]
          exact ⟨x, List.mem_cons_self _ _, hx, l0, r0, hc, hd⟩
        · have hd2 : deepEqual l0 r0 = false := by simpa using hd
          rw [hd2]
          simp only [Bool.false_eq_true, if_false]
          rw [ih]
          constructor
          · rintro ⟨w, hw, hrest⟩
            exact ⟨w, List.mem_cons_of_mem _ hw, hrest⟩
          · rintro ⟨w, hw, hne, l, r, hlr, heq⟩
            rcases List.mem_cons.mp hw with h | h
            · rw [h, hc] at hlr
              simp only [Except.ok.injEq, Prod.mk.injEq] at hlr
              rw [hlr.1, hlr.2] at hd
              exact absurd heq hd
            · exact ⟨w, h, hne, l, r, hlr, heq⟩

/-- C10: when column `c` is non-Null and every entry of the list evaluates
without error, `c IN (v1..vn)` is true if and only if there is a non-Null entry
`vi` such that coercing `(c, vi)` succeeds and the coerced pair is equal, and
`c NOT IN (v1..vn)` is the exact negation; Null entries are skipped. -/
theorem in_membership (std : GoStd) (m : Model) (c field : String) (v : Value)
    (items : List Expr) (values : List Value)
    (hname : getFieldName std m (.ColName c) = .ok field)
    (hval : getFieldValue m field = .ok v) (hv : v ≠ .null)
    (hvals : getValues std m items = .ok values) :
    ∃ b : Bool,
      evaluateExpr std m (.ComparisonExpr InStr (.ColName c) (.ValTuple items)) = .ok b ∧
      evaluateExpr std m (.ComparisonExpr NotInStr (.ColName c) (.ValTuple items)) = .ok (!b) ∧
      (b = true ↔
        ∃ w ∈ values, w ≠ .null ∧
          ∃ l r, convertTypes std v w = .ok (l, r) ∧ deepEqual l r = true) := by
  refine ⟨inLoop std v values, ?_, ?_, inLoop_eq_true_iff std v values⟩
  · simp [evaluateExpr, evaluateInExpr, hname, hval, hv, getSQLValues, hvals, InStr, NotInStr]
  · simp [evaluateExpr, evaluateInExpr, hname, hval, hv, getSQLValues, hvals, InStr, NotInStr]

/-- C10 on the test suite's `age IN (20, 25, 30)` for the user 李四 with a NULL
entry added: age 35 is in `(20, NULL, 35)`. -/
theorem in_membership_witness :
    getFieldName goStd userLiSi (.ColName "age") = .ok "Age" ∧
    getFieldValue userLiSi "Age" = .ok (.int 35) ∧
    getValues goStd userLiSi [.SQLVal IntVal "20", .NullVal, .SQLVal IntVal "35"]
      = .ok [.int 20, .null, .int 35] ∧
    ∃ b : Bool,
      evaluateExpr goStd userLiSi (.ComparisonExpr InStr (.ColName "age")
        (.ValTuple [.SQLVal IntVal "20", .NullVal, .SQLVal IntVal "35"])) = .ok b ∧
      evaluateExpr goStd userLiSi (.ComparisonExpr NotInStr (.ColName "age")
        (.ValTuple [.SQLVal IntVal "20", .NullVal, .SQLVal IntVal "35"])) = .ok (!b) ∧
      (b = true ↔
        ∃ w ∈ [Value.int 20, .null, .int 35], w ≠ .null ∧
          ∃ l r, convertTypes goStd (.int 35) w = .ok (l, r) ∧ deepEqual l r = true) :=
  ⟨rfl, rfl, rfl,
    in_membership goStd userLiSi "age" "Age" (.int 35) _ _ rfl rfl (by decide) rfl⟩

/-! ## Lemmas on the conversion of integers to float64 -/

theorem log2Loop_eq (fuel : Nat) : ∀ n acc : Nat, n ≤ fuel →
    log2Loop fuel n acc = acc + Nat.log2 n := by
  induction fuel with
  | zero =>
    intro n acc h
    have : n = 0 := by omega
    subst this
    rw [log2Loop, Nat.log2]
    simp
  | succ fuel ih =>
    intro n acc h
    rw [log2Loop]
    by_cases h2 : n < 2
    · rw [if_pos h2, Nat.log2]
      have : ¬ n ≥ 2 := by omega
      simp [this]
    · rw [if_neg h2, ih (n / 2) (acc + 1) (by omega)]
      conv_rhs => rw [Nat.log2]
      have : n ≥ 2 := by omega
      simp [this]
      omega

theorem floorLog2_eq (n : Nat) : floorLog2 n = Nat.log2 n := by
  rw [floorLog2, log2Loop_eq n n 0 (Nat.le_refl n)]
  simp

theorem unitsPerOne_pos : 0 < F64.one := by
  have h : 0 < F64.unitsPerOne := by
    unfold F64.unitsPerOne
    decide
  exact Int.ofNat_pos.mpr h

theorem roundToMantissa_small (n : Nat) (h : n < 2 ^ 53) : roundToMantissa n = n := by
  unfold roundToMantissa
  rw [Nat.shiftLeft_eq, Nat.one_mul, if_pos h]

theorem roundToMantissa_large (n : Nat) (h : 2 ^ 53 ≤ n) : 2 ^ 53 ≤ roundToMantissa n := by
  unfold roundToMantissa
  rw [Nat.shiftLeft_eq, Nat.one_mul, if_neg (by omega)]
  simp only [Nat.shiftLeft_eq, Nat.one_mul, floorLog2_eq]
  have hn : n ≠ 0 := by omega
  have hlog : 53 ≤ Nat.log2 n := by
    by_contra hc
    have h1 : Nat.log2 n < 53 := by omega
    have := (Nat.log2_lt hn).mp h1
    omega
  have hpow : 2 ^ (Nat.log2 n - 52) * 2 ^ 52 ≤ n := by
    rw [← Nat.pow_add]
    have : Nat.log2 n - 52 + 52 = Nat.log2 n := by omega
    rw [this]
    exact Nat.log2_self_le hn
  have hq : 2 ^ 52 ≤ n / 2 ^ (Nat.log2 n - 52) := by
    rw [Nat.le_div_iff_mul_le (by positivity)]
    rw [Nat.mul_comm]
    exact hpow
  have hr : n / 2 ^ (Nat.log2 n - 52) ≤ roundHalfEven n (2 ^ (Nat.log2 n - 52)) := by
    unfold roundHalfEven
    simp only
    split <;> omega
  have hk : 2 ≤ 2 ^ (Nat.log2 n - 52) := by
    calc 2 = 2 ^ 1 := rfl
      _ ≤ 2 ^ (Nat.log2 n - 52) := Nat.pow_le_pow_right (by decide) (by omega)
  calc 2 ^ 53 = 2 ^ 52 * 2 := by norm_num
    _ ≤ roundHalfEven n (2 ^ (Nat.log2 n - 52)) * 2 ^ (Nat.log2 n - 52) :=
      Nat.mul_le_mul (le_trans hq hr) hk

theorem float64_spec (n : Int) :
    ∃ r : Int, float64 n = .fin (r * F64.one) ∧
      (-(2 ^ 53 : Int) < n → n < 2 ^ 53 → r = n) ∧
      ((2 ^ 53 : Int) ≤ n → (2 ^ 53 : Int) ≤ r) ∧
      (n ≤ -(2 ^ 53 : Int) → r ≤ -(2 ^ 53 : Int)) := by
  cases n with
  | ofNat a =>
    refine ⟨(roundToMantissa a : Int), rfl, ?_, ?_, ?_⟩
    · intro _ h
      have h1 : (a : Int) < 2 ^ 53 := h
      have h2 : a < 2 ^ 53 := by omega
      rw [roundToMantissa_small a h2]
      rfl
    · intro h
      have h1 : (2 ^ 53 : Int) ≤ (a : Int) := h
      have h2 : 2 ^ 53 ≤ a := by omega
      have := roundToMantissa_large a h2
      omega
    · intro h
      have h2 : (0 : Int) ≤ Int.ofNat a := Int.ofNat_nonneg a
      omega
  | negSucc a =>
    refine ⟨-(roundToMantissa (a + 1) : Int), ?_, ?_, ?_, ?_⟩
    · show F64.fin (-(Int.ofNat (roundToMantissa (a + 1)) * F64.one)) = _
      rw [Int.neg_mul]
      rfl
    · intro h _
      have h2 : a + 1 < 2 ^ 53 := by
        have : Int.negSucc a = -((a + 1 : Nat) : Int) := rfl
        omega
      rw [roundToMantissa_small (a + 1) h2]
      rfl
    · intro h
      have : Int.negSucc a < 0 := Int.negSucc_lt_zero a
      omega
    · intro h
      have h2 : 2 ^ 53 ≤ a + 1 := by
        have : Int.negSucc a = -((a + 1 : Nat) : Int) := rfl
        omega
      have := roundToMantissa_large (a + 1) h2
      omega

theorem F64_lt_fin (x y : Int) :
    F64.lt (.fin (x * F64.one)) (.fin (y * F64.one)) = decide (x < y) := by
  simp only [F64.lt]
  congr 1
  exact propext (mul_lt_mul_right unitsPerOne_pos)

theorem F64_eq_fin (x y : Int) :
    F64.eq (.fin (x * F64.one)) (.fin (y * F64.one)) = decide (x = y) := by
  simp only [F64.eq]
  congr 1
  exact propext (mul_left_inj' (ne_of_gt unitsPerOne_pos))

theorem F64_le_fin (x y : Int) :
    F64.le (.fin (x * F64.one)) (.fin (y * F64.one)) = decide (x ≤ y) := by
  rw [F64.le, F64_lt_fin, F64_eq_fin]
  by_cases h1 : x < y <;> by_cases h2 : x = y <;> simp [h1, h2] <;> omega

theorem F64_ge_fin (x y : Int) :
    F64.ge (.fin (x * F64.one)) (.fin (y * F64.one)) = decide (y ≤ x) := by
  rw [F64.ge, F64_le_fin]

theorem F64_gt_fin (x y : Int) :
    F64.gt (.fin (x * F64.one)) (.fin (y * F64.one)) = decide (y < x) := by
  rw [F64.gt, F64_lt_fin]

theorem float64_cmp_small (n k : Int) (h1 : -(2 ^ 53 : Int) < k) (h2 : k < 2 ^ 53) :
    F64.ge (float64 n) (float64 k) = decide (k ≤ n) ∧
    F64.le (float64 n) (float64 k) = decide (n ≤ k) ∧
    F64.gt (float64 n) (float64 k) = decide (k < n) ∧
    F64.lt (float64 n) (float64 k) = decide (n < k) := by
  obtain ⟨r, hr, hs, hl, hn⟩ := float64_spec n
  obtain ⟨rk, hrk, hsk, _, _⟩ := float64_spec k
  have hk : rk = k := hsk h1 h2
  subst hk
  rw [hr, hrk, F64_ge_fin, F64_le_fin, F64_gt_fin, F64_lt_fin]
  by_cases ha : (2 ^ 53 : Int) ≤ n
  · have := hl ha
    refine ⟨?_, ?_, ?_, ?_⟩ <;> simp <;> omega
  · by_cases hb : n ≤ -(2 ^ 53 : Int)
    · have := hn hb
      refine ⟨?_, ?_, ?_, ?_⟩ <;> simp <;> omega
    · have : r = n := hs (by omega) (by omega)
      subst this
      exact ⟨rfl, rfl, rfl, rfl⟩

theorem float64_ge_self (n : Int) :
    F64.ge (float64 n) (float64 n) = true ∧ F64.le (float64 n) (float64 n) = true := by
  obtain ⟨r, hr, _⟩ := float64_spec n
  rw [hr, F64_ge_fin, F64_le_fin]
  simp

/-- C11: for every Integer value `n` of field `age`, `age BETWEEN 20 AND 30`
evaluates to true if and only if `20 ≤ n ≤ 30`, `age NOT BETWEEN 20 AND 30`
evaluates to the exact negation, and `age NOT BETWEEN k AND k` is false when
`n = k`.  The integer literals are read by `fmt.Sscanf` as their values. -/
theorem between_closed_interval (std : GoStd) (m : Model) (c field : String) (n : Int)
    (hname : getFieldName std m (.ColName c) = .ok field)
    (hval : getFieldValue m field = .ok (.int n))
    (h20 : std.sscanInt "20" = some 20) (h30 : std.sscanInt "30" = some 30) :
    evaluateExpr std m
      (.RangeCond BetweenStr (.ColName c) (.SQLVal IntVal "20") (.SQLVal IntVal "30"))
      = .ok (decide (20 ≤ n ∧ n ≤ 30)) ∧
    evaluateExpr std m
      (.RangeCond NotBetweenStr (.ColName c) (.SQLVal IntVal "20") (.SQLVal IntVal "30"))
      = .ok (!decide (20 ≤ n ∧ n ≤ 30)) ∧
    (∀ text : String, std.sscanInt text = some n →
      evaluateExpr std m
        (.RangeCond NotBetweenStr (.ColName c) (.SQLVal IntVal text) (.SQLVal IntVal text))
        = .ok false) := by
  have hlo := (float64_cmp_small n 20 (by norm_num) (by norm_num)).1
  have hhi := (float64_cmp_small n 30 (by norm_num) (by norm_num)).2.1
  have hself := float64_ge_self n
  refine ⟨?_, ?_, ?_⟩
  · simp [evaluateExpr, evaluateRange, hname, hval, getValue, h20, h30, rangeTail, convertTypes,
      convertSwitch, compareValues, hlo, hhi, IntVal, StrVal, BetweenStr, NotBetweenStr]
  · simp [evaluateExpr, evaluateRange, hname, hval, getValue, h20, h30, rangeTail, convertTypes,
      convertSwitch, compareValues, hlo, hhi, IntVal, StrVal, BetweenStr, NotBetweenStr]
  · intro text ht
    simp [evaluateExpr, evaluateRange, hname, hval, getValue, ht, rangeTail, convertTypes,
      convertSwitch, compareValues, hself.1, hself.2, IntVal, StrVal, NotBetweenStr]

/-- C11 on the test suite's user of age 25: the hypotheses hold and
`age BETWEEN 20 AND 30` is true. -/
theorem between_closed_interval_witness :
    getFieldName goStd (mkUser (some 1) (some "张三") (some 25) none (some true))
      (.ColName "age") = .ok "Age" ∧
    getFieldValue (mkUser (some 1) (some "张三") (some 25) none (some true)) "Age"
      = .ok (.int 25) ∧
    goStd.sscanInt "20" = some 20 ∧ goStd.sscanInt "30" = some 30 ∧
    evaluateExpr goStd (mkUser (some 1) (some "张三") (some 25) none (some true))
      (.RangeCond BetweenStr (.ColName "age") (.SQLVal IntVal "20") (.SQLVal IntVal "30"))
      = .ok (decide ((20 : Int) ≤ 25 ∧ (25 : Int) ≤ 30)) :=
  ⟨rfl, rfl, rfl, rfl,
    (between_closed_interval goStd (mkUser (some 1) (some "张三") (some 25) none (some true))
      "age" "Age" 25 rfl rfl rfl rfl).1⟩

/-- C12 fails on the code: the pattern `a.c` reaches the regular-expression
engine unescaped, so `evaluateLike("abc", "a.c")` is true (and so is
`name LIKE 'a.c'` on a user named abc), while the reference matcher, for which
`.` matches only itself, says false. -/
theorem like_unescaped_pattern :
    evaluateLike goStd (.str "abc") (.str "a.c") = .ok true ∧
    evaluateExpr goStd (mkUser (some 1) (some "abc") (some 25) none (some true))
      (.ComparisonExpr "like" (.ColName "name") (.SQLVal StrVal "a.c")) = .ok true ∧
    referenceLike "a.c".data "abc".data = false :=
  ⟨rfl, rfl, rfl⟩

/-- C13 fails on the code: `.` does not match a line feed, so on a user whose
name is 张 followed by a line feed `name LIKE '张%'` is false, and on a user
whose name is a line feed followed by 三 `name LIKE '_三'` is false; the
reference matcher accepts both. -/
theorem like_line_feed :
    evaluateExpr goStd (mkUser (some 1) (some "张\n") (some 25) none (some true))
      (.ComparisonExpr "like" (.ColName "name") (.SQLVal StrVal "张%")) = .ok false ∧
    evaluateExpr goStd (mkUser (some 1) (some "\n三") (some 25) none (some true))
      (.ComparisonExpr "like" (.ColName "name") (.SQLVal StrVal "_三")) = .ok false ∧
    referenceLike "张%".data "张\n".data = true ∧
    referenceLike "_三".data "\n三".data = true :=
  ⟨rfl, rfl, rfl, rfl⟩

/-- C14, as stated, fails: `compareValues` on two Booleans returns no error;
`true > false` is false and `true < true` is true, and on a user whose
`is_active` is true, `is_active > false` returns false with no error. -/
theorem boolean_ordering_counterexample :
    compareValues (.bool true) (.bool false) F64.gt = .ok false ∧
    compareValues (.bool true) (.bool true) F64.lt = .ok true ∧
    evaluateExpr goStd (mkUser (some 1) (some "张三") (some 25) none (some true))
      (.ComparisonExpr ">" (.ColName "is_active") (.BoolVal false)) = .ok false :=
  ⟨rfl, rfl, rfl⟩

/-- C14, amended: ordering on Booleans is not an error.  For a column holding
the Boolean `a` and a right operand, or bounds, evaluating to Booleans, every
ordering operator `<`, `<=`, `>`, `>=` returns, with no error, whether `a`
equals the right operand; BETWEEN returns whether `a` equals both bounds and
NOT BETWEEN the negation; `=` is equality and `!=` its negation. -/
theorem boolean_ordering (std : GoStd) (m : Model) (c field : String) (a : Bool)
    (hname : getFieldName std m (.ColName c) = .ok field)
    (hval : getFieldValue m field = .ok (.bool a)) :
    (∀ (b : Bool) (compare : F64 → F64 → Bool),
      compareValues (.bool a) (.bool b) compare = .ok (a == b)) ∧
    (∀ op ∈ ["<", "<=", ">", ">="], ∀ (rhs : Expr) (b : Bool),
      getValue std m rhs = .ok (.bool b) →
      evaluateExpr std m (.ComparisonExpr op (.ColName c) rhs) = .ok (a == b)) ∧
    (∀ (lo hi : Expr) (x y : Bool),
      getValue std m lo = .ok (.bool x) → getValue std m hi = .ok (.bool y) →
      evaluateExpr std m (.RangeCond BetweenStr (.ColName c) lo hi)
        = .ok ((a == x) && (a == y)) ∧
      evaluateExpr std m (.RangeCond NotBetweenStr (.ColName c) lo hi)
        = .ok (!((a == x) && (a == y)))) ∧
    (∀ (rhs : Expr) (b : Bool), getValue std m rhs = .ok (.bool b) →
      evaluateExpr std m (.ComparisonExpr "=" (.ColName c) rhs) = .ok (a == b) ∧
      evaluateExpr std m (.ComparisonExpr "!=" (.ColName c) rhs) = .ok (!(a == b))) := by
  have hcmp : ∀ (x y : Bool) (compare : F64 → F64 → Bool),
      compareValues (.bool x) (.bool y) compare = .ok (x == y) := by
    intro x y compare
    cases x <;> cases y <;> rfl
  refine ⟨hcmp a, ?_, ?_, ?_⟩
  · intro op hop rhs b hr
    simp only [List.mem_cons, List.mem_singleton, List.not_mem_nil, or_false] at hop
    rcases hop with h | h | h | h <;> subst h <;>
      simp [evaluateExpr, evaluateComparison, hname, hval, hr, convertTypes, convertSwitch,
        operatorSwitch, hcmp, InStr, NotInStr, BetweenStr, NotBetweenStr]
  · intro lo hi x y hlo hhi
    constructor <;>
      simp [evaluateExpr, evaluateRange, hname, hval, hlo, hhi, rangeTail, convertTypes,
        convertSwitch, hcmp, BetweenStr, NotBetweenStr]
  · intro rhs b hr
    constructor <;>
      simp [evaluateExpr, evaluateComparison, hname, hval, hr, convertTypes, convertSwitch,
        operatorSwitch, deepEqual, InStr, NotInStr, BetweenStr, NotBetweenStr] <;>
      cases a <;> cases b <;> rfl

/-- C14 amended, on a user whose `is_active` is true: `is_active >= true`
returns true with no error. -/
theorem boolean_ordering_witness :
    getFieldName goStd (mkUser (some 1) (some "张三") (some 25) none (some true))
      (.ColName "is_active") = .ok "IsActive" ∧
    getFieldValue (mkUser (some 1) (some "张三") (some 25) none (some true)) "IsActive"
      = .ok (.bool true) ∧
    evaluateExpr goStd (mkUser (some 1) (some "张三") (some 25) none (some true))
      (.ComparisonExpr ">=" (.ColName "is_active") (.BoolVal true)) = .ok (true == true) :=
  ⟨rfl, rfl,
    (boolean_ordering goStd (mkUser (some 1) (some "张三") (some 25) none (some true))
      "is_active" "IsActive" true rfl rfl).2.1 ">=" (by decide) (.BoolVal true) true rfl⟩

theorem convertTypes_text_number (std : GoStd) (s : String) :
    (std.parseFloat s = none →
      (∀ n, convertTypes std (.str s) (.int n) = .error (.cannotConvert "string" "int")) ∧
      (∀ y, convertTypes std (.str s) (.float y)
        = .error (.cannotConvert "string" "float64"))) ∧
    (∀ x, std.parseFloat s = some x →
      (∀ n, convertTypes std (.str s) (.int n) = .ok (.float x, .float (float64 n))) ∧
      (∀ y, convertTypes std (.str s) (.float y) = .ok (.float x, .float y))) := by
  constructor
  · intro h
    constructor <;> intro _ <;> simp [convertTypes, convertSwitch, h, Value.typeName]
  · intro x h
    constructor <;> intro _ <;> simp [convertTypes, convertSwitch, h]

set_option maxRecDepth 20000 in
/-- C15, as stated, fails: on a user whose name is the text "9007199254740992",
which parses as the number 2^53, the Integer literal 9007199254740993 (2^53 + 1)
is widened to the Float 2^53, so `name < 9007199254740993` evaluates to false
and `name = 9007199254740993` to true, although 2^53 is less than, and not equal
to, 2^53 + 1. -/
theorem text_against_number_counterexample :
    goStd.parseFloat "9007199254740992" = some (.fin (9007199254740992 * F64.one)) ∧
    goStd.sscanInt "9007199254740993" = some 9007199254740993 ∧
    float64 9007199254740993 = .fin (9007199254740992 * F64.one) ∧
    evaluateExpr goStd
      (mkUser (some 1) (some "9007199254740992") (some 25) none (some true))
      (.ComparisonExpr "<" (.ColName "name") (.SQLVal IntVal "9007199254740993"))
      = .ok false ∧
    evaluateExpr goStd
      (mkUser (some 1) (some "9007199254740992") (some 25) none (some true))
      (.ComparisonExpr "=" (.ColName "name") (.SQLVal IntVal "9007199254740993"))
      = .ok true :=
  ⟨rfl, rfl, rfl, rfl, rfl⟩

/-- C15, amended: for a record whose Text field holds `s`.  When `s` does not
parse as a floating-point number, `name op n` returns an error for every Integer
or Float literal `n` and every op among `=`, `!=`, `<`, `<=`, `>`, `>=`.  When
`s` parses as the number `x`, the comparison succeeds and returns the comparison
of `x` with `n` converted to Float: with `n` itself when `n` is a Float literal,
and when `n` is an Integer literal of magnitude below 2^53, whose Float is `n`
exactly (`n` times the Float one). -/
theorem text_against_number (std : GoStd) (m : Model) (c field s : String)
    (hname : getFieldName std m (.ColName c) = .ok field)
    (hval : getFieldValue m field = .ok (.str s)) :
    (std.parseFloat s = none →
      ∀ op ∈ ["=", "!=", "<", "<=", ">", ">="], ∀ ty ∈ [IntVal, FloatVal], ∀ text : String,
        ∃ e, evaluateExpr std m (.ComparisonExpr op (.ColName c) (.SQLVal ty text)) = .error e) ∧
    (∀ x : F64, std.parseFloat s = some x →
      (∀ (text : String) (n : Int), std.sscanInt text = some n →
        evaluateExpr std m (.ComparisonExpr "=" (.ColName c) (.SQLVal IntVal text))
          = .ok (F64.eq x (float64 n)) ∧
        evaluateExpr std m (.ComparisonExpr "!=" (.ColName c) (.SQLVal IntVal text))
          = .ok (!F64.eq x (float64 n)) ∧
        evaluateExpr std m (.ComparisonExpr "<" (.ColName c) (.SQLVal IntVal text))
          = .ok (F64.lt x (float64 n)) ∧
        evaluateExpr std m (.ComparisonExpr "<=" (.ColName c) (.SQLVal IntVal text))
          = .ok (F64.le x (float64 n)) ∧
        evaluateExpr std m (.ComparisonExpr ">" (.ColName c) (.SQLVal IntVal text))
          = .ok (F64.gt x (float64 n)) ∧
        evaluateExpr std m (.ComparisonExpr ">=" (.ColName c) (.SQLVal IntVal text))
          = .ok (F64.ge x (float64 n))) ∧
      (∀ (text : String) (y : F64), std.sscanFloat text = some y →
        evaluateExpr std m (.ComparisonExpr "=" (.ColName c) (.SQLVal FloatVal text))
          = .ok (F64.eq x y) ∧
        evaluateExpr std m (.ComparisonExpr "!=" (.ColName c) (.SQLVal FloatVal text))
          = .ok (!F64.eq x y) ∧
        evaluateExpr std m (.ComparisonExpr "<" (.ColName c) (.SQLVal FloatVal text))
          = .ok (F64.lt x y) ∧
        evaluateExpr std m (.ComparisonExpr "<=" (.ColName c) (.SQLVal FloatVal text))
          = .ok (F64.le x y) ∧
        evaluateExpr std m (.ComparisonExpr ">" (.ColName c) (.SQLVal FloatVal text))
          = .ok (F64.gt x y) ∧
        evaluateExpr std m (.ComparisonExpr ">=" (.ColName c) (.SQLVal FloatVal text))
          = .ok (F64.ge x y))) ∧
    (∀ n : Int, -(2 ^ 53 : Int) < n → n < 2 ^ 53 → float64 n = .fin (n * F64.one)) := by
  have hconv := convertTypes_text_number std s
  refine ⟨?_, ?_, ?_⟩
  · intro hnone op hop ty hty text
    obtain ⟨hci, hcf⟩ := hconv.1 hnone
    simp only [List.mem_cons, List.mem_singleton, List.not_mem_nil, or_false] at hop hty
    have hint : getValue std m (.SQLVal IntVal text) =
        (match std.sscanInt text with
          | some n => .ok (.int n)
          | none => .error .intLiteral) := by
      simp [getValue, IntVal, StrVal]
    have hfloat : getValue std m (.SQLVal FloatVal text) =
        (match std.sscanFloat text with
          | some f => .ok (.float f)
          | none => .error .floatLiteral) := by
      simp [getValue, IntVal, StrVal, FloatVal]
    rcases hty with h | h <;> subst h
    · cases hs : std.sscanInt text with
      | none =>
        rw [hs] at hint
        rcases hop with h | h | h | h | h | h <;> subst h <;>
          exact ⟨.intLiteral, by
            simp [evaluateExpr, evaluateComparison, hname, hval, hint, InStr, NotInStr,
              BetweenStr, NotBetweenStr]⟩
      | some n =>
        rw [hs] at hint
        rcases hop with h | h | h | h | h | h <;> subst h <;>
          exact ⟨.cannotConvert "string" "int", by
            simp [evaluateExpr, evaluateComparison, hname, hval, hint, hci, InStr, NotInStr,
              BetweenStr, NotBetweenStr]⟩
    · cases hs : std.sscanFloat text with
      | none =>
        rw [hs] at hfloat
        rcases hop with h | h | h | h | h | h <;> subst h <;>
          exact ⟨.floatLiteral, by
            simp [evaluateExpr, evaluateComparison, hname, hval, hfloat, InStr, NotInStr,
              BetweenStr, NotBetweenStr]⟩
      | some y =>
        rw [hs] at hfloat
        rcases hop with h | h | h | h | h | h <;> subst h <;>
          exact ⟨.cannotConvert "string" "float64", by
            simp [evaluateExpr, evaluateComparison, hname, hval, hfloat, hcf, InStr, NotInStr,
              BetweenStr, NotBetweenStr]⟩
  · intro x hx
    obtain ⟨hci, hcf⟩ := hconv.2 x hx
    constructor
    · intro text n hn
      have hint : getValue std m (.SQLVal IntVal text) = .ok (.int n) := by
        simp [getValue, IntVal, StrVal, hn]
      refine ⟨?_, ?_, ?_, ?_, ?_, ?_⟩ <;>
        simp [evaluateExpr, evaluateComparison, hname, hval, hint, hci, operatorSwitch,
          deepEqual, compareValues, InStr, NotInStr, BetweenStr, NotBetweenStr]
    · intro text y hy
      have hfloat : getValue std m (.SQLVal FloatVal text) = .ok (.float y) := by
        simp [getValue, IntVal, StrVal, FloatVal, hy]
      refine ⟨?_, ?_, ?_, ?_, ?_, ?_⟩ <;>
        simp [evaluateExpr, evaluateComparison, hname, hval, hfloat, hcf, operatorSwitch,
          deepEqual, compareValues, InStr, NotInStr, BetweenStr, NotBetweenStr]
  · intro n h1 h2
    obtain ⟨r, hr, hs, _⟩ := float64_spec n
    rw [hr, hs h1 h2]

set_option maxRecDepth 20000 in
/-- C15 amended, on the test suite: the name 张三 does not parse as a number and
`name > 100` is an error; the name "100.5" parses and `name > 100` is true,
100 being below 2^53 and its Float 100 exactly. -/
theorem text_against_number_witness :
    getFieldName goStd (mkUser (some 1) (some "张三") (some 25) none (some true))
      (.ColName "name") = .ok "Name" ∧
    goStd.parseFloat "张三" = none ∧
    (∃ e, evaluateExpr goStd (mkUser (some 1) (some "张三") (some 25) none (some true))
      (.ComparisonExpr ">" (.ColName "name") (.SQLVal IntVal "100")) = .error e) ∧
    goStd.parseFloat "100.5" = some (.fin (201 <<< 1073)) ∧
    evaluateExpr goStd (mkUser (some 1) (some "100.5") (some 25) none (some true))
      (.ComparisonExpr ">" (.ColName "name") (.SQLVal IntVal "100"))
      = .ok (F64.gt (.fin (201 <<< 1073)) (float64 100)) ∧
    float64 100 = .fin (100 * F64.one) ∧
    F64.gt (.fin (201 <<< 1073)) (.fin (100 * F64.one)) = true :=
  ⟨rfl, rfl,
    (text_against_number goStd (mkUser (some 1) (some "张三") (some 25) none (some true))
      "name" "Name" "张三" rfl rfl).1 rfl ">" (by decide) IntVal (by decide) "100",
    rfl,
    (((text_against_number goStd (mkUser (some 1) (some "100.5") (some 25) none (some true))
      "name" "Name" "100.5" rfl rfl).2.1 (.fin (201 <<< 1073)) rfl).1 "100" 100 rfl).2.2.2.2.1,
    (text_against_number goStd (mkUser (some 1) (some "100.5") (some 25) none (some true))
      "name" "Name" "100.5" rfl rfl).2.2 100 (by norm_num) (by norm_num),
    rfl⟩

theorem float64_eq_self (n : Int) : F64.eq (float64 n) (float64 n) = true := by
  obtain ⟨r, hr, _⟩ := float64_spec n
  rw [hr, F64_eq_fin]
  simp

theorem float64_eq_of_ne (a b : Int) (h : float64 a ≠ float64 b) :
    F64.eq (float64 a) (float64 b) = false := by
  obtain ⟨ra, hra, _⟩ := float64_spec a
  obtain ⟨rb, hrb, _⟩ := float64_spec b
  rw [hra, hrb] at h ⊢
  rw [F64_eq_fin]
  have : ra ≠ rb := by
    intro hab
    exact h (by rw [hab])
  simp [this]

theorem float64_injective_small (a b : Int) (ha1 : -(2 ^ 53 : Int) < a) (ha2 : a < 2 ^ 53)
    (hb1 : -(2 ^ 53 : Int) < b) (hb2 : b < 2 ^ 53) (hab : a ≠ b) : float64 a ≠ float64 b := by
  obtain ⟨ra, hra, hsa, _⟩ := float64_spec a
  obtain ⟨rb, hrb, hsb, _⟩ := float64_spec b
  have h1 : ra = a := hsa ha1 ha2
  have h2 : rb = b := hsb hb1 hb2
  subst h1 h2
  rw [hra, hrb]
  intro h
  simp only [F64.fin.injEq] at h
  exact hab ((mul_left_inj' (ne_of_gt unitsPerOne_pos)).mp h)

set_option maxRecDepth 20000 in
/-- C16, as stated, fails: on a user whose age is 9007199254740992 (2^53) the
predicate `age = '9007199254740993'` evaluates to true although the two
integers differ, because both convert to the same Float. -/
theorem coercion_symmetry_counterexample :
    getFieldValue (mkUser (some 1) (some "张三") (some 9007199254740992) none (some true)) "Age"
      = .ok (.int 9007199254740992) ∧
    evaluateExpr goStd (mkUser (some 1) (some "张三") (some 9007199254740992) none (some true))
      (.ComparisonExpr "=" (.ColName "age") (.SQLVal StrVal "9007199254740993")) = .ok true ∧
    evaluateExpr goStd (mkUser (some 1) (some "张三") (some 9007199254740992) none (some true))
      (.ComparisonExpr "=" (.ColName "age") (.SQLVal IntVal "9007199254740993")) = .ok false :=
  ⟨rfl, rfl, rfl⟩

/-- C16, amended: for every Integer `n` held by field `age`, `age = n` and
`age = 'd'` (`d` the decimal text of `n`) evaluate to true; for every Integer
literal `k` different from `n`, `age = k` evaluates to false, and `age = 'dk'`
(`dk` the decimal text of `k`) evaluates to false when `k` and `n` convert to
different Floats, which is the case whenever both have a magnitude below 2^53.
A decimal text of `n` is a text that `fmt.Sscanf` reads as the integer `n` and
`strconv.ParseFloat` as the Float nearest to `n`. -/
theorem coercion_symmetry (std : GoStd) (m : Model) (c field : String) (n : Int)
    (hname : getFieldName std m (.ColName c) = .ok field)
    (hval : getFieldValue m field = .ok (.int n)) :
    (∀ d : String, std.sscanInt d = some n →
      evaluateExpr std m (.ComparisonExpr "=" (.ColName c) (.SQLVal IntVal d)) = .ok true) ∧
    (∀ d : String, std.parseFloat d = some (float64 n) →
      evaluateExpr std m (.ComparisonExpr "=" (.ColName c) (.SQLVal StrVal d)) = .ok true) ∧
    (∀ (dk : String) (k : Int), std.sscanInt dk = some k → k ≠ n →
      evaluateExpr std m (.ComparisonExpr "=" (.ColName c) (.SQLVal IntVal dk)) = .ok false) ∧
    (∀ (dk : String) (k : Int), std.parseFloat dk = some (float64 k) →
      float64 k ≠ float64 n →
      evaluateExpr std m (.ComparisonExpr "=" (.ColName c) (.SQLVal StrVal dk)) = .ok false) ∧
    (∀ k : Int, -(2 ^ 53 : Int) < n → n < 2 ^ 53 → -(2 ^ 53 : Int) < k → k < 2 ^ 53 → k ≠ n →
      float64 k ≠ float64 n) := by
  refine ⟨?_, ?_, ?_, ?_, ?_⟩
  · intro d hd
    have hlit : getValue std m (.SQLVal IntVal d) = .ok (.int n) := by
      simp [getValue, IntVal, StrVal, hd]
    simp [evaluateExpr, evaluateComparison, hname, hval, hlit, convertTypes, convertSwitch,
      operatorSwitch, deepEqual, InStr, NotInStr, BetweenStr, NotBetweenStr]
  · intro d hd
    have hlit : getValue std m (.SQLVal StrVal d) = .ok (.str d) := by
      simp [getValue]
    simp [evaluateExpr, evaluateComparison, hname, hval, hlit, convertTypes, convertSwitch, hd,
      operatorSwitch, deepEqual, float64_eq_self, InStr, NotInStr, BetweenStr, NotBetweenStr]
  · intro dk k hd hk
    have hlit : getValue std m (.SQLVal IntVal dk) = .ok (.int k) := by
      simp [getValue, IntVal, StrVal, hd]
    have hne : n ≠ k := fun h => hk h.symm
    simp [evaluateExpr, evaluateComparison, hname, hval, hlit, convertTypes, convertSwitch,
      operatorSwitch, deepEqual, hne, InStr, NotInStr, BetweenStr, NotBetweenStr]
  · intro dk k hd hk
    have hlit : getValue std m (.SQLVal StrVal dk) = .ok (.str dk) := by
      simp [getValue]
    have hne : F64.eq (float64 n) (float64 k) = false :=
      float64_eq_of_ne n k (fun h => hk h.symm)
    simp [evaluateExpr, evaluateComparison, hname, hval, hlit, convertTypes, convertSwitch, hd,
      operatorSwitch, deepEqual, hne, InStr, NotInStr, BetweenStr, NotBetweenStr]
  · intro k hn1 hn2 hk1 hk2 hkn
    exact float64_injective_small k n hk1 hk2 hn1 hn2 hkn

set_option maxRecDepth 20000 in
/-- C16 amended, on the test suite's user of age 25: `age = 25` and `age = '25'`
are true, `age = '26'` is false. -/
theorem coercion_symmetry_witness :
    getFieldName goStd (mkUser (some 1) (some "张三") (some 25) none (some true))
      (.ColName "age") = .ok "Age" ∧
    goStd.sscanInt "25" = some 25 ∧ goStd.parseFloat "25" = some (float64 25) ∧
    goStd.parseFloat "26" = some (float64 26) ∧
    evaluateExpr goStd (mkUser (some 1) (some "张三") (some 25) none (some true))
      (.ComparisonExpr "=" (.ColName "age") (.SQLVal IntVal "25")) = .ok true ∧
    evaluateExpr goStd (mkUser (some 1) (some "张三") (some 25) none (some true))
      (.ComparisonExpr "=" (.ColName "age") (.SQLVal StrVal "25")) = .ok true ∧
    evaluateExpr goStd (mkUser (some 1) (some "张三") (some 25) none (some true))
      (.ComparisonExpr "=" (.ColName "age") (.SQLVal StrVal "26")) = .ok false :=
  ⟨rfl, rfl, rfl, rfl,
    (coercion_symmetry goStd (mkUser (some 1) (some "张三") (some 25) none (some true))
      "age" "Age" 25 rfl rfl).1 "25" rfl,
    (coercion_symmetry goStd (mkUser (some 1) (some "张三") (some 25) none (some true))
      "age" "Age" 25 rfl rfl).2.1 "25" rfl,
    (coercion_symmetry goStd (mkUser (some 1) (some "张三") (some 25) none (some true))
      "age" "Age" 25 rfl rfl).2.2.2.1 "26" 26 rfl
      ((coercion_symmetry goStd (mkUser (some 1) (some "张三") (some 25) none (some true))
        "age" "Age" 25 rfl rfl).2.2.2.2 26 (by decide) (by decide) (by decide) (by decide)
        (by decide))⟩

/-- C17 fails on the code: the two integers are converted to float64 before
they are compared, so for 9007199254740993 (2^53 + 1) and 9007199254740992
(2^53) `compareValues` answers false to `>`, although the first is greater and
`=` finds them different (and `>=` answers true); on a user of that age,
`age > 9007199254740992` is false. -/
theorem integer_ordering_above_mantissa :
    compareValues (.int 9007199254740993) (.int 9007199254740992) F64.gt = .ok false ∧
    compareValues (.int 9007199254740993) (.int 9007199254740992) F64.ge = .ok true ∧
    deepEqual (.int 9007199254740993) (.int 9007199254740992) = false ∧
    (9007199254740993 : Int) > 9007199254740992 ∧
    evaluateExpr goStd (mkUser (some 1) (some "张三") (some 9007199254740993) none (some true))
      (.ComparisonExpr ">" (.ColName "age") (.SQLVal IntVal "9007199254740992")) = .ok false :=
  ⟨rfl, rfl, rfl, by decide, rfl⟩

theorem compareChars_spec : ∀ a b : List Char,
    (compareChars a b = -1 ∧ a < b ∧ a ≠ b ∧ ¬ b < a) ∨
    (compareChars a b = 0 ∧ ¬ a < b ∧ a = b ∧ ¬ b < a) ∨
    (compareChars a b = 1 ∧ ¬ a < b ∧ a ≠ b ∧ b < a) := by
  intro a
  induction a with
  | nil =>
    intro b
    cases b with
    | nil =>
      right; left
      exact ⟨rfl, (by intro h; cases h), rfl, (by intro h; cases h)⟩
    | cons y ys =>
      left
      exact ⟨rfl, List.Lex.nil, (by intro h; cases h), (by intro h; cases h)⟩
  | cons x xs ih =>
    intro b
    cases b with
    | nil =>
      right; right
      exact ⟨rfl, (by intro h; cases h), (by intro h; cases h), List.Lex.nil⟩
    | cons y ys =>
      rw [compareChars]
      by_cases hxy : x.toNat < y.toNat
      · left
        have h1 : x < y := hxy
        have h2 : ¬ y < x := fun h => by
          have h3 : y.toNat < x.toNat := h
          omega
        have h0 : x ≠ y := by
          intro h
          rw [h] at hxy
          omega
        refine ⟨by rw [if_pos hxy], List.Lex.rel h1, ?_, ?_⟩
        · intro h
          injection h with h3 _
          exact h0 h3
        · intro h
          cases h with
          | cons _ => exact h0 rfl
          | rel h3 => exact h2 h3
      · by_cases hyx : y.toNat < x.toNat
        · right; right
          have h1 : y < x := hyx
          have h2 : ¬ x < y := hxy
          have h0 : x ≠ y := by
            intro h
            rw [h] at hyx
            omega
          refine ⟨by rw [if_neg hxy, if_pos hyx], ?_, ?_, List.Lex.rel h1⟩
          · intro h
            cases h with
            | cons _ => exact h0 rfl
            | rel h3 => exact h2 h3
          · intro h
            injection h with h3 _
            exact h0 h3
        · have heq : x = y := by
            apply Char.ext
            apply UInt32.toNat.inj
            have h3 : x.val.toNat = x.toNat := rfl
            have h4 : y.val.toNat = y.toNat := rfl
            omega
          subst heq
          have hir : ¬ x < x := hxy
          rw [if_neg hxy, if_neg hyx]
          rcases ih ys with ⟨h1, h2, h3, h4⟩ | ⟨h1, h2, h3, h4⟩ | ⟨h1, h2, h3, h4⟩
          · left
            refine ⟨h1, List.Lex.cons h2, ?_, ?_⟩
            · intro h
              injection h with _ h5
              exact h3 h5
            · intro h
              cases h with
              | cons h5 => exact h4 h5
              | rel h5 => exact hir h5
          · right; left
            refine ⟨h1, ?_, by rw [h3], ?_⟩
            · intro h
              cases h with
              | cons h5 => exact h2 h5
              | rel h5 => exact hir h5
            · intro h
              cases h with
              | cons h5 => exact h4 h5
              | rel h5 => exact hir h5
          · right; right
            refine ⟨h1, ?_, ?_, List.Lex.cons h4⟩
            · intro h
              cases h with
              | cons h5 => exact h2 h5
              | rel h5 => exact hir h5
            · intro h
              injection h with _ h5
              exact h3 h5

/-! ## Lemmas on the byte order of UTF-8 -/

theorem utf8EncodeNat_lt (a b : Nat) (h : a < b) (X Y : List Nat) :
    utf8EncodeNat a ++ X < utf8EncodeNat b ++ Y := by
  unfold utf8EncodeNat
  by_cases a1 : a < 0x80
  · rw [if_pos a1]
    by_cases b1 : b < 0x80
    · rw [if_pos b1]
      exact List.Lex.rel h
    · rw [if_neg b1]
      split
      · exact List.Lex.rel (by omega)
      · split
        · exact List.Lex.rel (by omega)
        · exact List.Lex.rel (by omega)
  · rw [if_neg a1, if_neg (by omega : ¬ b < 0x80)]
    by_cases a2 : a < 0x800
    · rw [if_pos a2]
      by_cases b2 : b < 0x800
      · rw [if_pos b2]
        by_cases e1 : a / 64 = b / 64
        · rw [e1]
          exact List.Lex.cons (List.Lex.rel (by omega))
        · exact List.Lex.rel (by omega)
      · rw [if_neg b2]
        split
        · exact List.Lex.rel (by omega)
        · exact List.Lex.rel (by omega)
    · rw [if_neg a2, if_neg (by omega : ¬ b < 0x800)]
      by_cases a3 : a < 0x10000
      · rw [if_pos a3]
        by_cases b3 : b < 0x10000
        · rw [if_pos b3]
          by_cases e1 : a / 4096 = b / 4096
          · rw [e1]
            refine List.Lex.cons ?_
            by_cases e2 : a / 64 % 64 = b / 64 % 64
            · rw [e2]
              exact List.Lex.cons (List.Lex.rel (by omega))
            · exact List.Lex.rel (by omega)
          · exact List.Lex.rel (by omega)
        · rw [if_neg b3]
          exact List.Lex.rel (by omega)
      · rw [if_neg a3, if_neg (by omega : ¬ b < 0x10000)]
        by_cases e1 : a / 262144 = b / 262144
        · rw [e1]
          refine List.Lex.cons ?_
          by_cases e2 : a / 4096 % 64 = b / 4096 % 64
          · rw [e2]
            refine List.Lex.cons ?_
            by_cases e3 : a / 64 % 64 = b / 64 % 64
            · rw [e3]
              exact List.Lex.cons (List.Lex.rel (by omega))
            · exact List.Lex.rel (by omega)
          · exact List.Lex.rel (by omega)
        · exact List.Lex.rel (by omega)

theorem utf8EncodeNat_ne_nil (a : Nat) : ∃ x xs, utf8EncodeNat a = x :: xs := by
  unfold utf8EncodeNat
  split
  · exact ⟨_, _, rfl⟩
  · split
    · exact ⟨_, _, rfl⟩
    · split <;> exact ⟨_, _, rfl⟩

theorem utf8Bytes_lt_of_lt : ∀ a b : List Char, a < b → utf8Bytes a < utf8Bytes b := by
  intro a b h
  induction h with
  | nil =>
    rename_i c l
    obtain ⟨x, xs, hx⟩ := utf8EncodeNat_ne_nil c.toNat
    simp only [utf8Bytes, List.flatMap_nil, List.flatMap_cons, hx, List.cons_append]
    exact List.Lex.nil
  | cons _ ih =>
    simp only [utf8Bytes, List.flatMap_cons]
    exact List.Lex.append_left _ ih _
  | rel hr =>
    simp only [utf8Bytes, List.flatMap_cons]
    exact utf8EncodeNat_lt _ _ hr _ _

theorem utf8Bytes_lt_iff (a b : List Char) : a < b ↔ utf8Bytes a < utf8Bytes b := by
  constructor
  · exact utf8Bytes_lt_of_lt a b
  · intro h
    rcases compareChars_spec a b with ⟨_, h2, _, _⟩ | ⟨_, _, h3, _⟩ | ⟨_, _, _, h4⟩
    · exact h2
    · rw [h3] at h
      exact absurd h (lt_irrefl _)
    · exact absurd h (lt_asymm (utf8Bytes_lt_of_lt b a h4))

/-- C18: for all Text values `s` and `t`, `compareValues(s, t, op)` returns
without error the result of `op` on the lexicographic order of `s` and `t`,
which is the bytewise lexicographic order of their UTF-8 encodings: exactly one
of `s < t`, `s = t`, `s > t` holds, `<=` is the negation of `>` and `>=` the
negation of `<`. -/
theorem text_ordering (s t : String) :
    compareValues (.str s) (.str t) F64.lt = .ok (decide (s < t)) ∧
    compareValues (.str s) (.str t) F64.gt = .ok (decide (t < s)) ∧
    compareValues (.str s) (.str t) F64.le = .ok (!decide (t < s)) ∧
    compareValues (.str s) (.str t) F64.ge = .ok (!decide (s < t)) ∧
    ((s < t ∧ s ≠ t ∧ ¬ t < s) ∨ (¬ s < t ∧ s = t ∧ ¬ t < s) ∨ (¬ s < t ∧ s ≠ t ∧ t < s)) ∧
    (s < t ↔ utf8Bytes s.data < utf8Bytes t.data) ∧
    (t < s ↔ utf8Bytes t.data < utf8Bytes s.data) := by
  have hall :
      compareValues (.str s) (.str t) F64.lt = .ok (decide (s < t)) ∧
      compareValues (.str s) (.str t) F64.gt = .ok (decide (t < s)) ∧
      compareValues (.str s) (.str t) F64.le = .ok (!decide (t < s)) ∧
      compareValues (.str s) (.str t) F64.ge = .ok (!decide (s < t)) ∧
      ((s < t ∧ s ≠ t ∧ ¬ t < s) ∨ (¬ s < t ∧ s = t ∧ ¬ t < s) ∨
        (¬ s < t ∧ s ≠ t ∧ t < s)) := by
    have hne : s ≠ t ↔ s.data ≠ t.data := by
      constructor
      · intro h h2
        exact h (String.ext h2)
      · intro h h2
        exact h (by rw [h2])
    have hst : s < t ↔ s.data < t.data := String.lt_iff_toList_lt
    have hts : t < s ↔ t.data < s.data := String.lt_iff_toList_lt
    have hm : F64.lt (float64 (-1)) (float64 0) = true ∧
        F64.gt (float64 (-1)) (float64 0) = false ∧
        F64.le (float64 (-1)) (float64 0) = true ∧ F64.ge (float64 (-1)) (float64 0) = false :=
      ⟨rfl, rfl, rfl, rfl⟩
    have hz : F64.lt (float64 0) (float64 0) = false ∧ F64.gt (float64 0) (float64 0) = false ∧
        F64.le (float64 0) (float64 0) = true ∧ F64.ge (float64 0) (float64 0) = true :=
      ⟨rfl, rfl, rfl, rfl⟩
    have hp : F64.lt (float64 1) (float64 0) = false ∧ F64.gt (float64 1) (float64 0) = true ∧
        F64.le (float64 1) (float64 0) = false ∧ F64.ge (float64 1) (float64 0) = true :=
      ⟨rfl, rfl, rfl, rfl⟩
    simp only [compareValues, stringsCompare]
    rcases compareChars_spec s.data t.data with ⟨h1, h2, h3, h4⟩ | ⟨h1, h2, h3, h4⟩ |
        ⟨h1, h2, h3, h4⟩
    · rw [h1]
      have a1 : s < t := hst.mpr h2
      have a2 : ¬ t < s := fun h => h4 (hts.mp h)
      have a3 : s ≠ t := hne.mpr h3
      simp [hm.1, hm.2.1, hm.2.2.1, hm.2.2.2, a1, a2, a3]
    · rw [h1]
      have a1 : ¬ s < t := fun h => h2 (hst.mp h)
      have a2 : ¬ t < s := fun h => h4 (hts.mp h)
      have a3 : s = t := String.ext h3
      simp only [hz.1, hz.2.1, hz.2.2.1, hz.2.2.2, a1, a2, decide_False, Bool.not_false,
        not_false_eq_true, true_and, and_true, and_self, false_and, or_false, false_or, ne_eq]
      simp [a3]
    · rw [h1]
      have a1 : ¬ s < t := fun h => h2 (hst.mp h)
      have a2 : t < s := hts.mpr h4
      have a3 : s ≠ t := hne.mpr h3
      simp [hp.1, hp.2.1, hp.2.2.1, hp.2.2.2, a1, a2, a3]
  exact ⟨hall.1, hall.2.1, hall.2.2.1, hall.2.2.2.1, hall.2.2.2.2,
    String.lt_iff_toList_lt.trans (utf8Bytes_lt_iff s.data t.data),
    String.lt_iff_toList_lt.trans (utf8Bytes_lt_iff t.data s.data)⟩

/-! ## Lemmas on name mangling -/

theorem foldl_append_data (l : List String) : ∀ acc : String,
    (l.foldl (fun r s => r ++ s) acc).data = acc.data ++ l.flatMap String.data := by
  induction l with
  | nil => intro acc; simp
  | cons x xs ih =>
    intro acc
    rw [List.foldl_cons, ih]
    simp [String.data_append, List.append_assoc]

theorem join_data (l : List String) : (String.join l).data = l.flatMap String.data := by
  unfold String.join
  rw [foldl_append_data]
  rfl

theorem splitChars_ne_nil (sep : Char) (cs : List Char) : splitChars sep cs ≠ [] := by
  cases cs with
  | nil => simp [splitChars]
  | cons c cs =>
    rw [splitChars]
    split
    · simp
    · split <;> simp

theorem mem_splitChars (sep : Char) : ∀ (cs : List Char) (c : Char),
    c ∈ cs → c ≠ sep → ∃ p ∈ splitChars sep cs, c ∈ p := by
  intro cs
  induction cs with
  | nil => intro c h; cases h
  | cons x xs ih =>
    intro c hc hne
    rw [splitChars]
    cases hs : splitChars sep xs with
    | nil => exact absurd hs (splitChars_ne_nil sep xs)
    | cons p ps =>
      simp only
      rcases List.mem_cons.mp hc with h | h
      · subst h
        rw [if_neg hne]
        exact ⟨c :: p, List.mem_cons_self _ _, List.mem_cons_self _ _⟩
      · obtain ⟨q, hq, hcq⟩ := ih c h hne
        rw [hs] at hq
        by_cases hx : x = sep
        · rw [if_pos hx]
          exact ⟨q, List.mem_cons_of_mem _ hq, hcq⟩
        · rw [if_neg hx]
          rcases List.mem_cons.mp hq with h2 | h2
          · subst h2
            exact ⟨x :: q, List.mem_cons_self _ _, List.mem_cons_of_mem _ hcq⟩
          · exact ⟨q, List.mem_cons_of_mem _ h2, hcq⟩

theorem splitChars_subset (sep : Char) : ∀ (cs p : List Char) (c : Char),
    p ∈ splitChars sep cs → c ∈ p → c ∈ cs := by
  intro cs
  induction cs with
  | nil =>
    intro p c hp hc
    simp only [splitChars, List.mem_singleton] at hp
    subst hp
    cases hc
  | cons x xs ih =>
    intro p c hp hc
    rw [splitChars] at hp
    cases hs : splitChars sep xs with
    | nil => exact absurd hs (splitChars_ne_nil sep xs)
    | cons q qs =>
      rw [hs] at hp ih
      simp only at hp
      by_cases hx : x = sep
      · rw [if_pos hx] at hp
        rcases List.mem_cons.mp hp with h | h
        · subst h
          cases hc
        · exact List.mem_cons_of_mem _ (ih p c h hc)
      · rw [if_neg hx] at hp
        rcases List.mem_cons.mp hp with h | h
        · subst h
          rcases List.mem_cons.mp hc with h2 | h2
          · subst h2
            exact List.mem_cons_self _ _
          · exact List.mem_cons_of_mem _ (ih q c (List.mem_cons_self _ _) h2)
        · exact List.mem_cons_of_mem _ (ih p c (List.mem_cons_of_mem _ h) hc)

theorem titleChars_id (std : GoStd) : ∀ (p : List Char) (prev : Char),
    isSeparator prev = false → (∀ c ∈ p, isSeparator c = false) → titleChars std prev p = p := by
  intro p
  induction p with
  | nil => intro prev _ _; rfl
  | cons x xs ih =>
    intro prev hprev hall
    rw [titleChars, hprev]
    simp only [Bool.false_eq_true, if_false]
    rw [ih x (hall x (List.mem_cons_self _ _)) (fun c hc => hall c (List.mem_cons_of_mem _ hc))]

theorem titleChars_eq_capitalize (std : GoStd) (p : List Char)
    (hall : ∀ c ∈ p, isSeparator c = false) :
    titleChars std ' ' p = capitalizeChars std p := by
  cases p with
  | nil => rfl
  | cons x xs =>
    have hsp : isSeparator ' ' = true := by decide
    rw [titleChars, hsp, capitalizeChars]
    simp only [if_true]
    rw [titleChars_id std xs x (hall x (List.mem_cons_self _ _))
      (fun c hc => hall c (List.mem_cons_of_mem _ hc))]

theorem titleChars_keeps_separator (std : GoStd)
    (htitle : ∀ c, isSeparator c = true → isSeparator (std.toTitle c) = true) :
    ∀ (p : List Char) (prev : Char), (∃ c ∈ p, isSeparator c = true) →
      ∃ c ∈ titleChars std prev p, isSeparator c = true := by
  intro p
  induction p with
  | nil => rintro prev ⟨c, hc, _⟩; cases hc
  | cons x xs ih =>
    rintro prev ⟨c, hc, hsep⟩
    rw [titleChars]
    rcases List.mem_cons.mp hc with h | h
    · subst h
      by_cases hp : isSeparator prev = true
      · rw [if_pos hp]
        exact ⟨std.toTitle c, List.mem_cons_self _ _, htitle c hsep⟩
      · rw [if_neg hp]
        exact ⟨c, List.mem_cons_self _ _, hsep⟩
    · obtain ⟨d, hd, hdsep⟩ := ih x ⟨c, h, hsep⟩
      exact ⟨d, List.mem_cons_of_mem _ hd, hdsep⟩

theorem capitalizeChars_keeps_separator (std : GoStd)
    (htitle : ∀ c, isSeparator c = true → isSeparator (std.toTitle c) = true)
    (p : List Char) (h : ∃ c ∈ p, isSeparator c = true) :
    ∃ c ∈ capitalizeChars std p, isSeparator c = true := by
  obtain ⟨c, hc, hsep⟩ := h
  cases p with
  | nil => cases hc
  | cons x xs =>
    rw [capitalizeChars]
    rcases List.mem_cons.mp hc with h | h
    · subst h
      exact ⟨std.toTitle c, List.mem_cons_self _ _, htitle c hsep⟩
    · exact ⟨c, List.mem_cons_of_mem _ h, hsep⟩

theorem no_field_named (m : Model) (name : String)
    (hwf : ∀ f ∈ m, ∀ c ∈ f.name.data, isSeparator c = false)
    (hsep : ∃ c ∈ name.data, isSeparator c = true) :
    fieldByName m name = none ∧ m.any (fun f => decide (f.name = name)) = false := by
  obtain ⟨c, hc, hcs⟩ := hsep
  have hne : ∀ f ∈ m, f.name ≠ name := by
    intro f hf h
    have := hwf f hf c (by rw [h]; exact hc)
    rw [this] at hcs
    cases hcs
  constructor
  · unfold fieldByName
    rw [List.find?_eq_none]
    intro f hf
    simpa using hne f hf
  · rw [List.any_eq_false]
    intro f hf
    simpa using hne f hf

theorem fieldByName_any (m : Model) (name : String) :
    (fieldByName m name).isSome = m.any (fun f => decide (f.name = name)) := by
  unfold fieldByName
  induction m with
  | nil => rfl
  | cons f fs ih =>
    rw [List.find?_cons, List.any_cons]
    by_cases h : f.name = name
    · simp [h]
    · simp [h, ih]

/-- C19: field resolution order.  `getFieldName` returns the name obtained by
splitting the identifier on `_`, capitalizing each segment and concatenating,
if the record has a field of that name; otherwise the first declared field
whose tag equals the identifier verbatim; otherwise it fails with a
field-not-found error naming the identifier.  The capitalized-name lookup wins
even when another field carries the identifier as its tag.  Field names are Go
identifiers (they hold no separator character) and title-casing maps a
separator to a separator. -/
theorem field_resolution_order (std : GoStd) (m : Model) (id : String)
    (hwf : ∀ f ∈ m, ∀ c ∈ f.name.data, isSeparator c = false)
    (htitle : ∀ c, isSeparator c = true → isSeparator (std.toTitle c) = true) :
    getFieldName std m (.ColName id) = specResolve std m id ∧
    (∀ f ∈ m, f.name = specFieldName std id →
      getFieldName std m (.ColName id) = .ok (specFieldName std id)) := by
  have hmain : getFieldName std m (.ColName id) = specResolve std m id := by
    by_cases hsep : ∃ c ∈ id.data, isSeparator c = true
    · obtain ⟨c0, hc0, hs0⟩ := hsep
      have hne : c0 ≠ '_' := by
        intro h
        rw [h] at hs0
        revert hs0
        decide
      obtain ⟨p, hp, hcp⟩ := mem_splitChars '_' id.data c0 hc0 hne
      have h1 : ∃ c ∈ (mangle std id).data, isSeparator c = true := by
        obtain ⟨d, hd, hds⟩ := titleChars_keeps_separator std htitle p ' ' ⟨c0, hcp, hs0⟩
        refine ⟨d, ?_, hds⟩
        unfold mangle
        rw [join_data, List.mem_flatMap]
        exact ⟨Title std (String.mk p), List.mem_map_of_mem _ hp, hd⟩
      have h2 : ∃ c ∈ (specFieldName std id).data, isSeparator c = true := by
        obtain ⟨d, hd, hds⟩ := capitalizeChars_keeps_separator std htitle p ⟨c0, hcp, hs0⟩
        refine ⟨d, ?_, hds⟩
        unfold specFieldName
        rw [join_data, List.mem_flatMap]
        exact ⟨String.mk (capitalizeChars std p), List.mem_map_of_mem _ hp, hd⟩
      have n1 := (no_field_named m _ hwf h1).1
      have n2 := (no_field_named m _ hwf h2).2
      simp only [getFieldName, n1, specResolve, n2, Bool.false_eq_true, if_false]
    · have hall : ∀ c ∈ id.data, isSeparator c = false := by
        intro c hc
        by_contra h
        exact hsep ⟨c, hc, by simpa using h⟩
      have heq : mangle std id = specFieldName std id := by
        unfold mangle specFieldName
        congr 1
        apply List.map_congr_left
        intro p hp
        unfold Title
        congr 1
        exact titleChars_eq_capitalize std p
          (fun c hc => hall c (splitChars_subset '_' id.data p c hp hc))
      have hany := fieldByName_any m (specFieldName std id)
      simp only [getFieldName, specResolve, heq]
      cases hf : fieldByName m (specFieldName std id) with
      | some g =>
        rw [hf] at hany
        simp only [Option.isSome_some] at hany
        rw [← hany]
        simp
      | none =>
        rw [hf] at hany
        simp only [Option.isSome_none] at hany
        rw [← hany]
        simp
  refine ⟨hmain, ?_⟩
  intro f hf hname
  rw [hmain, specResolve]
  have : m.any (fun g => decide (g.name = specFieldName std id)) = true := by
    rw [List.any_eq_true]
    exact ⟨f, hf, by simpa using hname⟩
  rw [if_pos this]

theorem goStd_title_separator (c : Char) (h : isSeparator c = true) :
    isSeparator (goStd.toTitle c) = true := by
  have ht : goStd.toTitle c = c := by
    show (if 97 ≤ c.toNat ∧ c.toNat ≤ 122 then Char.ofNat (c.toNat - 32) else c) = c
    by_cases hr : 97 ≤ c.toNat ∧ c.toNat ≤ 122
    · exfalso
      have h7 : c.toNat ≤ 0x7F := by omega
      have : isSeparator c = false := by
        simp only [isSeparator, h7, if_true]
        simp [hr.1, hr.2]
      rw [this] at h
      cases h
    · rw [if_neg hr]
  rw [ht]
  exact h

/-- C19 on the test suite's user: `is_active` resolves to the field `IsActive`
by its capitalized name, `id` (capitalized `Id`, no such field) resolves to the
field `ID` by its tag, and `nosuch` is not found. -/
theorem field_resolution_order_witness :
    (∀ f ∈ userLiSi, ∀ c ∈ f.name.data, isSeparator c = false) ∧
    specFieldName goStd "is_active" = "IsActive" ∧
    getFieldName goStd userLiSi (.ColName "is_active") = specResolve goStd userLiSi "is_active" ∧
    specResolve goStd userLiSi "is_active" = .ok "IsActive" ∧
    specFieldName goStd "id" = "Id" ∧
    getFieldName goStd userLiSi (.ColName "id") = specResolve goStd userLiSi "id" ∧
    specResolve goStd userLiSi "id" = .ok "ID" ∧
    getFieldName goStd userLiSi (.ColName "nosuch") = specResolve goStd userLiSi "nosuch" ∧
    specResolve goStd userLiSi "nosuch" = .error (.fieldNotFound "nosuch") :=
  ⟨by decide, rfl,
    (field_resolution_order goStd userLiSi "is_active" (by decide) goStd_title_separator).1, rfl,
    rfl,
    (field_resolution_order goStd userLiSi "id" (by decide) goStd_title_separator).1, rfl,
    (field_resolution_order goStd userLiSi "nosuch" (by decide) goStd_title_separator).1, rfl⟩

/-- C20 fails on the code: a column on the right is looked up under its
verbatim name, without the name resolution used on the left.  On a user with
ID 25 and Age 25 the identifier `age` resolves, as a left operand, to the value
25, yet as a right operand it is not found, and `id = age`,
`id BETWEEN age AND age` and `id IN (age)` return the field-not-found error
instead of true. -/
theorem right_column_not_resolved :
    getFieldName goStd (mkUser (some 25) (some "张三") (some 25) none (some true))
      (.ColName "age") = .ok "Age" ∧
    getFieldValue (mkUser (some 25) (some "张三") (some 25) none (some true)) "Age"
      = .ok (.int 25) ∧
    getValue goStd (mkUser (some 25) (some "张三") (some 25) none (some true)) (.ColName "age")
      = .error (.fieldNotFound "age") ∧
    evaluateExpr goStd (mkUser (some 25) (some "张三") (some 25) none (some true))
      (.ComparisonExpr "=" (.ColName "id") (.ColName "age")) = .error (.fieldNotFound "age") ∧
    evaluateExpr goStd (mkUser (some 25) (some "张三") (some 25) none (some true))
      (.RangeCond BetweenStr (.ColName "id") (.ColName "age") (.ColName "age"))
      = .error (.fieldNotFound "age") ∧
    evaluateExpr goStd (mkUser (some 25) (some "张三") (some 25) none (some true))
      (.ComparisonExpr InStr (.ColName "id") (.ValTuple [.ColName "age"]))
      = .error (.fieldNotFound "age") :=
  ⟨rfl, rfl, rfl, rfl, rfl, rfl⟩

/-! ## Lemmas on the plain comparison path -/

theorem evaluateComparison_plain (std : GoStd) (m : Model) (op : String) (left right : Expr)
    (hop : op ∉ ["in", "not in", "between", "not between", "is null", "is not null"]) :
    evaluateExpr std m (.ComparisonExpr op left right) =
      (match getFieldName std m left with
        | .error e => .error e
        | .ok field =>
          match getFieldValue m field with
          | .error e => .error e
          | .ok leftVal =>
            if leftVal = .null then .ok false
            else
              match getValue std m right with
              | .error e => .error e
              | .ok rightVal =>
                if rightVal = .null then .ok false
                else
                  match convertTypes std leftVal rightVal with
                  | .error e => .error e
                  | .ok p => operatorSwitch std op p.1 p.2) := by
  simp only [List.mem_cons, List.mem_singleton, List.not_mem_nil, or_false, not_or] at hop
  obtain ⟨h10, h11, h12, h13, h14, h15⟩ := hop
  simp only [evaluateExpr, InStr, NotInStr, h10, h11, or_self, if_false]
  simp only [evaluateComparison, InStr, NotInStr, BetweenStr, NotBetweenStr, h10, h11, h12, h13,
    h14, h15, and_false, or_self, if_false]
  generalize getFieldName std m left = rf
  cases rf with
  | error e => rfl
  | ok field =>
    dsimp only
    generalize getFieldValue m field = rv
    cases rv with
    | error e => rfl
    | ok leftVal =>
      dsimp only
      by_cases hl : leftVal = .null
      · simp only [hl, if_true]
      · simp only [hl, if_false]
        generalize getValue std m right = rr
        cases rr with
        | error e => rfl
        | ok rightVal =>
          dsimp only
          by_cases hr : rightVal = .null
          · simp only [hr, if_true]
          · simp only [hr, if_false]
            generalize convertTypes std leftVal rightVal = rc
            cases rc with
            | error e => rfl
            | ok p => rfl

theorem convertTypes_shape (std : GoStd) (v w l r : Value) (hv : v ≠ .null) (hw : w ≠ .null)
    (h : convertTypes std v w = .ok (l, r)) :
    (∃ a b, v = .int a ∧ w = .int b ∧ l = .int a ∧ r = .int b) ∨
    (∃ a b, l = .float a ∧ r = .float b) ∨
    (∃ a b, v = .str a ∧ w = .str b ∧ l = .str a ∧ r = .str b) ∨
    (∃ a b, v = .bool a ∧ l = .bool a ∧ r = .bool b) ∨
    (l = v ∧ r = w ∧ ((∃ t p, v = .other t p) ∨ (∃ t p, w = .other t p))) := by
  unfold convertTypes at h
  simp only [hv, hw, or_self, if_false] at h
  cases v with
  | null => exact absurd rfl hv
  | int a =>
    cases w with
    | null => exact absurd rfl hw
    | int b =>
      simp only [convertSwitch, Except.ok.injEq, Prod.mk.injEq] at h
      exact Or.inl ⟨a, b, rfl, rfl, h.1.symm, h.2.symm⟩
    | float b =>
      simp only [convertSwitch, Except.ok.injEq, Prod.mk.injEq] at h
      exact Or.inr (Or.inl ⟨_, _, h.1.symm, h.2.symm⟩)
    | str b =>
      simp only [convertSwitch] at h
      cases hp : std.parseFloat b with
      | some f =>
        simp only [hp, Except.ok.injEq, Prod.mk.injEq] at h
        exact Or.inr (Or.inl ⟨_, _, h.1.symm, h.2.symm⟩)
      | none => simp [hp, Value.typeName] at h
    | bool b => simp [convertSwitch, Value.typeName] at h
    | other t p =>
      simp only [convertSwitch] at h
      split at h
      · simp only [Except.ok.injEq, Prod.mk.injEq] at h
        exact Or.inr (Or.inr (Or.inr (Or.inr ⟨h.1.symm, h.2.symm, Or.inr ⟨t, p, rfl⟩⟩)))
      · cases h
  | float a =>
    cases w with
    | null => exact absurd rfl hw
    | int b =>
      simp only [convertSwitch, Except.ok.injEq, Prod.mk.injEq] at h
      exact Or.inr (Or.inl ⟨_, _, h.1.symm, h.2.symm⟩)
    | float b =>
      simp only [convertSwitch, Except.ok.injEq, Prod.mk.injEq] at h
      exact Or.inr (Or.inl ⟨_, _, h.1.symm, h.2.symm⟩)
    | str b =>
      simp only [convertSwitch] at h
      cases hp : std.parseFloat b with
      | some f =>
        simp only [hp, Except.ok.injEq, Prod.mk.injEq] at h
        exact Or.inr (Or.inl ⟨_, _, h.1.symm, h.2.symm⟩)
      | none => simp [hp, Value.typeName] at h
    | bool b => simp [convertSwitch, Value.typeName] at h
    | other t p =>
      simp only [convertSwitch] at h
      split at h
      · simp only [Except.ok.injEq, Prod.mk.injEq] at h
        exact Or.inr (Or.inr (Or.inr (Or.inr ⟨h.1.symm, h.2.symm, Or.inr ⟨t, p, rfl⟩⟩)))
      · cases h
  | str a =>
    cases w with
    | null => exact absurd rfl hw
    | int b =>
      simp only [convertSwitch] at h
      cases hp : std.parseFloat a with
      | some f =>
        simp only [hp, Except.ok.injEq, Prod.mk.injEq] at h
        exact Or.inr (Or.inl ⟨_, _, h.1.symm, h.2.symm⟩)
      | none => simp [hp, Value.typeName] at h
    | float b =>
      simp only [convertSwitch] at h
      cases hp : std.parseFloat a with
      | some f =>
        simp only [hp, Except.ok.injEq, Prod.mk.injEq] at h
        exact Or.inr (Or.inl ⟨_, _, h.1.symm, h.2.symm⟩)
      | none => simp [hp, Value.typeName] at h
    | str b =>
      simp only [convertSwitch, Except.ok.injEq, Prod.mk.injEq] at h
      exact Or.inr (Or.inr (Or.inl ⟨a, b, rfl, rfl, h.1.symm, h.2.symm⟩))
    | bool b => simp [convertSwitch, Value.typeName] at h
    | other t p =>
      simp only [convertSwitch] at h
      split at h
      · simp only [Except.ok.injEq, Prod.mk.injEq] at h
        exact Or.inr (Or.inr (Or.inr (Or.inr ⟨h.1.symm, h.2.symm, Or.inr ⟨t, p, rfl⟩⟩)))
      · cases h
  | bool a =>
    cases w with
    | null => exact absurd rfl hw
    | int b => simp [convertSwitch, Value.typeName] at h
    | float b => simp [convertSwitch, Value.typeName] at h
    | str b =>
      simp only [convertSwitch] at h
      cases hp : parseBool b with
      | some f =>
        simp only [hp, Except.ok.injEq, Prod.mk.injEq] at h
        exact Or.inr (Or.inr (Or.inr (Or.inl ⟨a, f, rfl, h.1.symm, h.2.symm⟩)))
      | none => simp [hp, Value.typeName] at h
    | bool b =>
      simp only [convertSwitch, Except.ok.injEq, Prod.mk.injEq] at h
      exact Or.inr (Or.inr (Or.inr (Or.inl ⟨a, b, rfl, h.1.symm, h.2.symm⟩)))
    | other t p =>
      simp only [convertSwitch] at h
      split at h
      · simp only [Except.ok.injEq, Prod.mk.injEq] at h
        exact Or.inr (Or.inr (Or.inr (Or.inr ⟨h.1.symm, h.2.symm, Or.inr ⟨t, p, rfl⟩⟩)))
      · cases h
  | other t p =>
    have hs : convertSwitch std (.other t p) w = none := by
      cases w <;> rfl
    rw [hs] at h
    simp only at h
    split at h
    · simp only [Except.ok.injEq, Prod.mk.injEq] at h
      exact Or.inr (Or.inr (Or.inr (Or.inr ⟨h.1.symm, h.2.symm, Or.inl ⟨t, p, rfl⟩⟩)))
    · cases h

theorem evaluateLike_ok (std : GoStd) (l r : Value) (b : Bool)
    (h : evaluateLike std l r = .ok b) : ∃ s p, l = .str s ∧ r = .str p := by
  cases l <;> cases r <;> simp [evaluateLike] at h
  exact ⟨_, _, rfl, rfl⟩

theorem operatorSwitch_like (std : GoStd) (l r : Value) :
    operatorSwitch std "like" l r = evaluateLike std l r ∧
    operatorSwitch std "not like" l r =
      (match evaluateLike std l r with
        | .error e => .error e
        | .ok result => .ok (!result)) := by
  constructor <;> simp [operatorSwitch]

/-- C21: LIKE requires Text on both sides.  For a comparison `c LIKE r` or
`c NOT LIKE r` in which the value of `c` and the value of `r` are both
non-Null, the evaluation returns a boolean only if both values are Text; if
either is of another kind, the evaluation returns an error. -/
theorem like_requires_text (std : GoStd) (m : Model) (c field : String) (v w : Value)
    (rhs : Expr) (hname : getFieldName std m (.ColName c) = .ok field)
    (hval : getFieldValue m field = .ok v) (hv : v ≠ .null)
    (hr : getValue std m rhs = .ok w) (hw : w ≠ .null) :
    ∀ op ∈ ["like", "not like"],
      (∀ b, evaluateExpr std m (.ComparisonExpr op (.ColName c) rhs) = .ok b →
        ∃ s p, v = .str s ∧ w = .str p) ∧
      ((¬ ∃ s p, v = .str s ∧ w = .str p) →
        ∃ e, evaluateExpr std m (.ComparisonExpr op (.ColName c) rhs) = .error e) := by
  intro op hop
  have hplain := evaluateComparison_plain std m op (.ColName c) rhs (by
    simp only [List.mem_cons, List.mem_singleton, List.not_mem_nil, or_false] at hop
    rcases hop with h | h <;> subst h <;> decide)
  simp only [hname, hval, hv, hr, hw, if_false] at hplain
  have hfirst : ∀ b, evaluateExpr std m (.ComparisonExpr op (.ColName c) rhs) = .ok b →
      ∃ s p, v = .str s ∧ w = .str p := by
    intro b hb
    rw [hplain] at hb
    cases hc : convertTypes std v w with
    | error e => rw [hc] at hb; cases hb
    | ok p =>
      obtain ⟨l, r⟩ := p
      rw [hc] at hb
      simp only at hb
      have hlike : ∃ b2, evaluateLike std l r = .ok b2 := by
        simp only [List.mem_cons, List.mem_singleton, List.not_mem_nil, or_false] at hop
        rcases hop with h | h
        · subst h
          rw [(operatorSwitch_like std l r).1] at hb
          exact ⟨b, hb⟩
        · subst h
          rw [(operatorSwitch_like std l r).2] at hb
          cases hl : evaluateLike std l r with
          | error e => rw [hl] at hb; cases hb
          | ok b2 => exact ⟨b2, rfl⟩
      obtain ⟨b2, hb2⟩ := hlike
      obtain ⟨s, p, hl, hr2⟩ := evaluateLike_ok std l r b2 hb2
      subst hl hr2
      rcases convertTypes_shape std v w _ _ hv hw hc with
        ⟨a, b3, _, _, h3, _⟩ | ⟨a, b3, h3, _⟩ | ⟨a, b3, h1, h2, _, _⟩ | ⟨a, b3, _, h3, _⟩ |
        ⟨h1, h2, _⟩
      · cases h3
      · cases h3
      · exact ⟨a, b3, h1, h2⟩
      · cases h3
      · exact ⟨s, p, h1.symm, h2.symm⟩
  refine ⟨hfirst, ?_⟩
  intro hnot
  cases hres : evaluateExpr std m (.ComparisonExpr op (.ColName c) rhs) with
  | error e => exact ⟨e, rfl⟩
  | ok b => exact absurd (hfirst b hres) hnot

/-- C21 on the test suite's user 李四: `age LIKE '3%'` compares an Integer with
a Text and returns an error. -/
theorem like_requires_text_witness :
    getFieldName goStd userLiSi (.ColName "age") = .ok "Age" ∧
    getFieldValue userLiSi "Age" = .ok (.int 35) ∧
    getValue goStd userLiSi (.SQLVal StrVal "3%") = .ok (.str "3%") ∧
    ∃ e, evaluateExpr goStd userLiSi
      (.ComparisonExpr "like" (.ColName "age") (.SQLVal StrVal "3%")) = .error e :=
  ⟨rfl, rfl, rfl,
    ((like_requires_text goStd userLiSi "age" "Age" (.int 35) (.str "3%") (.SQLVal StrVal "3%")
      rfl rfl (by decide) rfl (by decide)) "like" (by decide)).2 (by simp)⟩

/-- C22: NOT LIKE is the negation of LIKE.  For every record, left operand `c`
and right operand `r`, `c NOT LIKE r` returns an error exactly when
`c LIKE r` does (the same error); when `c` and `r` are both non-Null and
`c LIKE r` returns the boolean `b`, `c NOT LIKE r` returns `!b`; when `c` or
`r` is Null both return false. -/
theorem not_like_negates_like (std : GoStd) (m : Model) (left right : Expr) :
    (∀ e, evaluateExpr std m (.ComparisonExpr "like" left right) = .error e ↔
      evaluateExpr std m (.ComparisonExpr "not like" left right) = .error e) ∧
    (∀ field v w, getFieldName std m left = .ok field → getFieldValue m field = .ok v →
      v ≠ .null → getValue std m right = .ok w → w ≠ .null →
      ∀ b, evaluateExpr std m (.ComparisonExpr "like" left right) = .ok b →
        evaluateExpr std m (.ComparisonExpr "not like" left right) = .ok (!b)) ∧
    (∀ field, getFieldName std m left = .ok field → getFieldValue m field = .ok .null →
      evaluateExpr std m (.ComparisonExpr "like" left right) = .ok false ∧
      evaluateExpr std m (.ComparisonExpr "not like" left right) = .ok false) ∧
    (∀ field v, getFieldName std m left = .ok field → getFieldValue m field = .ok v →
      v ≠ .null → getValue std m right = .ok .null →
      evaluateExpr std m (.ComparisonExpr "like" left right) = .ok false ∧
      evaluateExpr std m (.ComparisonExpr "not like" left right) = .ok false) := by
  rw [evaluateComparison_plain std m "like" left right (by decide),
    evaluateComparison_plain std m "not like" left right (by decide)]
  refine ⟨?_, ?_, ?_, ?_⟩
  · intro e
    generalize getFieldName std m left = rf
    cases rf with
    | error e1 => exact Iff.rfl
    | ok field =>
      dsimp only
      generalize getFieldValue m field = rv
      cases rv with
      | error e1 => exact Iff.rfl
      | ok leftVal =>
        dsimp only
        split
        · exact Iff.rfl
        · generalize getValue std m right = rr
          cases rr with
          | error e1 => exact Iff.rfl
          | ok rightVal =>
            dsimp only
            split
            · exact Iff.rfl
            · generalize convertTypes std leftVal rightVal = rc
              cases rc with
              | error e1 => exact Iff.rfl
              | ok p =>
                dsimp only
                rw [(operatorSwitch_like std p.1 p.2).1, (operatorSwitch_like std p.1 p.2).2]
                cases evaluateLike std p.1 p.2 <;> simp
  · intro field v w hf hv hvn hw hwn b
    simp only [hf, hv, hvn, hw, hwn, if_false]
    generalize convertTypes std v w = rc
    cases rc with
    | error e1 => intro h; cases h
    | ok p =>
      dsimp only
      rw [(operatorSwitch_like std p.1 p.2).1, (operatorSwitch_like std p.1 p.2).2]
      intro h
      rw [h]
  · intro field hf hv
    simp [hf, hv]
  · intro field v hf hv hvn hw
    simp [hf, hv, hvn, hw]

/-- C22 on the test suite's NOT LIKE case: for the user 张三, `name LIKE '李%'`
is false and `name NOT LIKE '李%'` is true. -/
theorem not_like_negates_like_witness :
    evaluateExpr goStd (mkUser (some 1) (some "张三") (some 25) none (some true))
      (.ComparisonExpr "like" (.ColName "name") (.SQLVal StrVal "李%")) = .ok false ∧
    evaluateExpr goStd (mkUser (some 1) (some "张三") (some 25) none (some true))
      (.ComparisonExpr "not like" (.ColName "name") (.SQLVal StrVal "李%")) = .ok (!false) :=
  ⟨rfl,
    (not_like_negates_like goStd (mkUser (some 1) (some "张三") (some 25) none (some true))
      (.ColName "name") (.SQLVal StrVal "李%")).2.1 "Name" (.str "张三") (.str "李%") rfl rfl
      (by decide) rfl (by decide) false rfl⟩

/-- C23: when the parsed statement is a SELECT that carries no WHERE clause,
`EvaluateWhere` returns true with no error, for every record (also one with no
field at all) and whatever the parser and the library are. -/
theorem where_absent_is_true (std : GoStd) (parse : String → Option Statement) (m : Model)
    (whereClause : String)
    (h : parse ("SELECT * FROM `users` WHERE " ++ whereClause) = some (.Select none)) :
    EvaluateWhere std parse m whereClause = .ok true := by
  unfold EvaluateWhere
  rw [h]

/-- C23 on a record with no field: with a parser that returns a SELECT without
WHERE clause, the result is true. -/
theorem where_absent_is_true_witness :
    EvaluateWhere goStd (fun _ => some (.Select none)) [] "" = .ok true :=
  where_absent_is_true goStd (fun _ => some (.Select none)) [] "" rfl

/-- C24 fails on the code: `convertTypes` parses the Text as a boolean only
when the Boolean comes first.  `convertTypes(true, "true")` is the pair
(true, true), but `convertTypes(t, b)` fails for every Text `t` and Boolean
`b`, so that on a user named "true" the predicate `name = true` returns the
conversion error, while `is_active = 'true'` is true. -/
theorem boolean_text_order :
    convertTypes goStd (.bool true) (.str "true") = .ok (.bool true, .bool true) ∧
    (∀ (std : GoStd) (t : String) (b : Bool),
      convertTypes std (.str t) (.bool b) = .error (.cannotConvert "string" "bool")) ∧
    evaluateExpr goStd (mkUser (some 1) (some "true") (some 25) none (some true))
      (.ComparisonExpr "=" (.ColName "name") (.BoolVal true))
      = .error (.cannotConvert "string" "bool") ∧
    evaluateExpr goStd (mkUser (some 1) (some "true") (some 25) none (some true))
      (.ComparisonExpr "=" (.ColName "is_active") (.SQLVal StrVal "true")) = .ok true := by
  refine ⟨rfl, ?_, rfl, rfl⟩
  intro std t b
  simp [convertTypes, convertSwitch, Value.typeName]

/-- C25: numeric-Text coercion is symmetric.  For every Integer or Float `n`
and every Text `t`, `convertTypes(n, t)` succeeds if and only if
`convertTypes(t, n)` succeeds if and only if `t` parses as a floating-point
number; `convertTypes(n, t) = (x, y)` exactly when `convertTypes(t, n) = (y, x)`,
and both components are then Float. -/
theorem numeric_text_symmetric (std : GoStd) (n : Value) (t : String)
    (hn : (∃ i, n = .int i) ∨ (∃ f, n = .float f)) :
    ((∃ p, convertTypes std n (.str t) = .ok p) ↔ (∃ x, std.parseFloat t = some x)) ∧
    ((∃ p, convertTypes std (.str t) n = .ok p) ↔ (∃ x, std.parseFloat t = some x)) ∧
    (∀ x y, convertTypes std n (.str t) = .ok (x, y) ↔
      convertTypes std (.str t) n = .ok (y, x)) ∧
    (∀ x y, convertTypes std n (.str t) = .ok (x, y) →
      ∃ fx fy, x = .float fx ∧ y = .float fy) := by
  rcases hn with ⟨i, hi⟩ | ⟨f, hf⟩
  · subst hi
    cases hp : std.parseFloat t with
    | none =>
      have h1 : convertTypes std (.int i) (.str t) = .error (.cannotConvert "int" "string") := by
        simp [convertTypes, convertSwitch, hp, Value.typeName]
      have h2 : convertTypes std (.str t) (.int i) = .error (.cannotConvert "string" "int") := by
        simp [convertTypes, convertSwitch, hp, Value.typeName]
      simp [h1, h2]
    | some z =>
      have h1 : convertTypes std (.int i) (.str t) = .ok (.float (float64 i), .float z) := by
        simp [convertTypes, convertSwitch, hp]
      have h2 : convertTypes std (.str t) (.int i) = .ok (.float z, .float (float64 i)) := by
        simp [convertTypes, convertSwitch, hp]
      simp only [h1, h2, Except.ok.injEq, Prod.mk.injEq]
      refine ⟨by simp, by simp, ?_, ?_⟩
      · intro x y
        exact ⟨fun h => ⟨h.2, h.1⟩, fun h => ⟨h.2, h.1⟩⟩
      · intro x y h
        exact ⟨_, _, h.1.symm, h.2.symm⟩
  · subst hf
    cases hp : std.parseFloat t with
    | none =>
      have h1 : convertTypes std (.float f) (.str t)
          = .error (.cannotConvert "float64" "string") := by
        simp [convertTypes, convertSwitch, hp, Value.typeName]
      have h2 : convertTypes std (.str t) (.float f)
          = .error (.cannotConvert "string" "float64") := by
        simp [convertTypes, convertSwitch, hp, Value.typeName]
      simp [h1, h2]
    | some z =>
      have h1 : convertTypes std (.float f) (.str t) = .ok (.float f, .float z) := by
        simp [convertTypes, convertSwitch, hp]
      have h2 : convertTypes std (.str t) (.float f) = .ok (.float z, .float f) := by
        simp [convertTypes, convertSwitch, hp]
      simp only [h1, h2, Except.ok.injEq, Prod.mk.injEq]
      refine ⟨by simp, by simp, ?_, ?_⟩
      · intro x y
        exact ⟨fun h => ⟨h.2, h.1⟩, fun h => ⟨h.2, h.1⟩⟩
      · intro x y h
        exact ⟨_, _, h.1.symm, h.2.symm⟩

set_option maxRecDepth 20000 in
/-- C25 at the Integer 25 and the Text "25": both orders succeed, with
mirrored pairs of Floats. -/
theorem numeric_text_symmetric_witness :
    convertTypes goStd (.int 25) (.str "25") = .ok (.float (float64 25), .float (float64 25)) ∧
    (convertTypes goStd (.int 25) (.str "25") = .ok (.float (float64 25), .float (float64 25)) ↔
      convertTypes goStd (.str "25") (.int 25)
        = .ok (.float (float64 25), .float (float64 25))) :=
  ⟨rfl, (numeric_text_symmetric goStd (.int 25) "25" (Or.inl ⟨25, rfl⟩)).2.2.1 _ _⟩

theorem convertTypes_same_kind (std : GoStd) :
    (∀ i j : Int, convertTypes std (.int i) (.int j) = .ok (.int i, .int j)) ∧
    (∀ f g : F64, convertTypes std (.float f) (.float g) = .ok (.float f, .float g)) ∧
    (∀ s t : String, convertTypes std (.str s) (.str t) = .ok (.str s, .str t)) ∧
    (∀ p q : Bool, convertTypes std (.bool p) (.bool q) = .ok (.bool p, .bool q)) := by
  refine ⟨?_, ?_, ?_, ?_⟩ <;> intros <;> simp [convertTypes, convertSwitch]

/-- C26: Integer-Float widening.  For every Integer `i` and Float `f`,
`convertTypes(i, f)` and `convertTypes(f, i)` do not fail and return a pair of
Floats in which `f` is unchanged and `i` is replaced by its Float conversion;
if either input is Null, or both inputs have the same kind, `convertTypes`
returns the pair unchanged with no error. -/
theorem integer_float_widening (std : GoStd) :
    (∀ (i : Int) (f : F64),
      convertTypes std (.int i) (.float f) = .ok (.float (float64 i), .float f) ∧
      convertTypes std (.float f) (.int i) = .ok (.float f, .float (float64 i))) ∧
    (∀ b : Value, convertTypes std .null b = .ok (.null, b)) ∧
    (∀ a : Value, convertTypes std a .null = .ok (a, .null)) ∧
    (∀ i j : Int, convertTypes std (.int i) (.int j) = .ok (.int i, .int j)) ∧
    (∀ f g : F64, convertTypes std (.float f) (.float g) = .ok (.float f, .float g)) ∧
    (∀ s t : String, convertTypes std (.str s) (.str t) = .ok (.str s, .str t)) ∧
    (∀ p q : Bool, convertTypes std (.bool p) (.bool q) = .ok (.bool p, .bool q)) := by
  refine ⟨?_, ?_, ?_, ?_, ?_, ?_, ?_⟩
  · intro i f
    constructor <;> simp [convertTypes, convertSwitch]
  · intro b
    simp [convertTypes]
  · intro a
    simp [convertTypes]
  · intro i j
    simp [convertTypes, convertSwitch]
  · intro f g
    simp [convertTypes, convertSwitch]
  · intro s t
    simp [convertTypes, convertSwitch]
  · intro p q
    simp [convertTypes, convertSwitch]

/-- C27: successful coercion yields a comparable pair.  For all non-Null values
`a` and `b` of kinds Integer, Float, Text or Boolean, if `convertTypes(a, b)`
succeeds then its two results have the same kind, `convertTypes` applied again
to the result returns it unchanged, and `compareValues` on the result does not
fail. -/
theorem coercion_yields_comparable (std : GoStd) (a b x y : Value)
    (ha : a ≠ .null ∧ ∀ t p, a ≠ .other t p) (hb : b ≠ .null ∧ ∀ t p, b ≠ .other t p)
    (h : convertTypes std a b = .ok (x, y)) :
    ((∃ i j, x = .int i ∧ y = .int j) ∨ (∃ f g, x = .float f ∧ y = .float g) ∨
      (∃ s t, x = .str s ∧ y = .str t) ∨ (∃ p q, x = .bool p ∧ y = .bool q)) ∧
    x.typeName = y.typeName ∧
    convertTypes std x y = .ok (x, y) ∧
    (∀ compare : F64 → F64 → Bool, ∃ r, compareValues x y compare = .ok r) := by
  have hw := convertTypes_same_kind std
  rcases convertTypes_shape std a b x y ha.1 hb.1 h with
    ⟨i, j, _, _, hx, hy⟩ | ⟨f, g, hx, hy⟩ | ⟨s, t, _, _, hx, hy⟩ | ⟨p, q, _, hx, hy⟩ |
    ⟨hx, hy, ho⟩
  · subst hx hy
    exact ⟨Or.inl ⟨i, j, rfl, rfl⟩, rfl, hw.1 i j, fun cmp => ⟨_, rfl⟩⟩
  · subst hx hy
    exact ⟨Or.inr (Or.inl ⟨f, g, rfl, rfl⟩), rfl, hw.2.1 f g, fun cmp => ⟨_, rfl⟩⟩
  · subst hx hy
    exact ⟨Or.inr (Or.inr (Or.inl ⟨s, t, rfl, rfl⟩)), rfl, hw.2.2.1 s t,
      fun cmp => ⟨_, rfl⟩⟩
  · subst hx hy
    refine ⟨Or.inr (Or.inr (Or.inr ⟨p, q, rfl, rfl⟩)), rfl, hw.2.2.2 p q, fun cmp => ?_⟩
    cases p <;> cases q <;> exact ⟨_, rfl⟩
  · rcases ho with ⟨t, p, hv⟩ | ⟨t, p, hv⟩
    · exact absurd hv (ha.2 t p)
    · exact absurd hv (hb.2 t p)

set_option maxRecDepth 20000 in
/-- C27 at the Text "25" and the Integer 30: the coercion gives two Floats, on
which `compareValues` succeeds. -/
theorem coercion_yields_comparable_witness :
    convertTypes goStd (.str "25") (.int 30) = .ok (.float (float64 25), .float (float64 30)) ∧
    convertTypes goStd (.float (float64 25)) (.float (float64 30))
      = .ok (.float (float64 25), .float (float64 30)) ∧
    ∃ r, compareValues (.float (float64 25)) (.float (float64 30)) F64.lt = .ok r :=
  ⟨rfl,
    (coercion_yields_comparable goStd (.str "25") (.int 30) _ _
      ⟨by decide, by intros; simp⟩ ⟨by decide, by intros; simp⟩ rfl).2.2.1,
    (coercion_yields_comparable goStd (.str "25") (.int 30) _ _
      ⟨by decide, by intros; simp⟩ ⟨by decide, by intros; simp⟩ rfl).2.2.2 F64.lt⟩

theorem evaluateExpr_and (std : GoStd) (m : Model) (l r : Expr) :
    evaluateExpr std m (.AndExpr l r) =
      (match evaluateExpr std m l with
        | .error e => .error e
        | .ok left =>
          match evaluateExpr std m r with
          | .error e => .error e
          | .ok right => .ok (left && right)) := by
  rw [evaluateExpr]

theorem operatorSwitch_ge_le (std : GoStd) (l r : Value) :
    operatorSwitch std ">=" l r = compareValues l r F64.ge ∧
    operatorSwitch std "<=" l r = compareValues l r F64.le := by
  constructor <;> simp [operatorSwitch]

/-- C28, as stated, fails: on the user 李四, whose name is a Text that is no
number, `name BETWEEN 5 AND NULL` is false with no error, while
`name >= 5 AND name <= NULL` returns the error of coercing the name against 5. -/
theorem between_null_bound_counterexample :
    evaluateExpr goStd userLiSi
      (.RangeCond BetweenStr (.ColName "name") (.SQLVal IntVal "5") .NullVal) = .ok false ∧
    evaluateExpr goStd userLiSi
      (.AndExpr (.ComparisonExpr ">=" (.ColName "name") (.SQLVal IntVal "5"))
        (.ComparisonExpr "<=" (.ColName "name") .NullVal))
      = .error (.cannotConvert "string" "int") :=
  ⟨rfl, rfl⟩

/-- C28, amended: evaluating `c BETWEEN a AND b` returns an error exactly when
evaluating `c >= a AND c <= b` returns an error, and otherwise both return the
same boolean, provided that, when `c` is non-Null and both bounds evaluate, the
bounds are both Null or both non-Null.  When `c` is non-Null and exactly one
bound is Null, BETWEEN returns false with no error, and the conjunction returns
false or an error. -/
theorem between_vs_conjunction (std : GoStd) (m : Model) (left a b : Expr) :
    ((∀ field v x y, getFieldName std m left = .ok field → getFieldValue m field = .ok v →
        v ≠ .null → getValue std m a = .ok x → getValue std m b = .ok y →
        (x = .null ↔ y = .null)) →
      (((∃ e, evaluateExpr std m (.RangeCond BetweenStr left a b) = .error e) ↔
        (∃ e, evaluateExpr std m
          (.AndExpr (.ComparisonExpr ">=" left a) (.ComparisonExpr "<=" left b)) = .error e)) ∧
      (∀ r1 r2, evaluateExpr std m (.RangeCond BetweenStr left a b) = .ok r1 →
        evaluateExpr std m
          (.AndExpr (.ComparisonExpr ">=" left a) (.ComparisonExpr "<=" left b)) = .ok r2 →
        r1 = r2))) ∧
    (∀ field v x y, getFieldName std m left = .ok field → getFieldValue m field = .ok v →
      v ≠ .null → getValue std m a = .ok x → getValue std m b = .ok y →
      ¬ (x = .null ↔ y = .null) →
      evaluateExpr std m (.RangeCond BetweenStr left a b) = .ok false ∧
      (evaluateExpr std m
          (.AndExpr (.ComparisonExpr ">=" left a) (.ComparisonExpr "<=" left b)) = .ok false ∨
        ∃ e, evaluateExpr std m
          (.AndExpr (.ComparisonExpr ">=" left a) (.ComparisonExpr "<=" left b)) = .error e)) := by
  rw [evaluateExpr_and, evaluateComparison_plain std m ">=" left a (by decide),
    evaluateComparison_plain std m "<=" left b (by decide)]
  simp only [evaluateExpr, evaluateRange, operatorSwitch_ge_le]
  constructor
  · intro hcompat
    generalize getFieldName std m left = rf at hcompat ⊢
    cases rf with
    | error e => simp
    | ok field =>
      dsimp only
      have hc2 := fun v x y => hcompat field v x y rfl
      clear hcompat
      generalize getFieldValue m field = rv at hc2 ⊢
      cases rv with
      | error e => simp
      | ok v =>
        dsimp only
        by_cases hv : v = .null
        · simp [hv]
        · simp only [hv, if_false]
          have hcompat := fun x y => hc2 v x y rfl hv
          clear hc2
          generalize getValue std m a = ra at hcompat ⊢
          cases ra with
          | error e => simp
          | ok x =>
            dsimp only
            generalize getValue std m b = rb at hcompat ⊢
            cases rb with
            | error e =>
              dsimp only
              by_cases hx : x = .null
              · simp [hx]
              · simp only [hx, if_false]
                generalize convertTypes std v x = c1
                cases c1 with
                | error e1 => simp
                | ok p1 =>
                  dsimp only
                  generalize compareValues p1.1 p1.2 F64.ge = k1
                  cases k1 <;> simp
            | ok y =>
              dsimp only
              have hxy := hcompat x y rfl rfl
              by_cases hx : x = .null
              · have hy : y = .null := hxy.mp hx
                simp [hx, hy, rangeTail]
              · have hy : y ≠ .null := fun h => hx (hxy.mpr h)
                simp only [hx, hy, if_false, rangeTail, or_self]
                generalize convertTypes std v x = c1
                cases c1 with
                | error e1 => simp
                | ok p1 =>
                  obtain ⟨l1, r1⟩ := p1
                  dsimp only
                  generalize convertTypes std v y = c2
                  cases c2 with
                  | error e2 =>
                    dsimp only
                    generalize compareValues l1 r1 F64.ge = k1
                    cases k1 <;> simp
                  | ok p2 =>
                    obtain ⟨l2, r2⟩ := p2
                    dsimp only
                    generalize compareValues l1 r1 F64.ge = k1
                    cases k1 with
                    | error e3 => simp
                    | ok f =>
                      dsimp only
                      generalize compareValues l2 r2 F64.le = k2
                      cases k2 with
                      | error e4 => simp
                      | ok t => simp [BetweenStr, NotBetweenStr]
  · intro field v x y hf hval hv ha hb hxy
    simp only [hf, hval, hv, ha, hb, if_false, rangeTail]
    by_cases hx : x = .null
    · have hy : y ≠ .null := fun h => hxy ⟨fun _ => h, fun _ => hx⟩
      simp only [hx, hy, true_or, if_true, if_false, true_and]
      generalize convertTypes std v y = c2
      cases c2 with
      | error e2 => simp
      | ok p2 =>
        dsimp only
        generalize compareValues p2.1 p2.2 F64.le = k2
        cases k2 <;> simp
    · have hy : y = .null := by
        by_contra h
        exact hxy ⟨fun h1 => absurd h1 hx, fun h1 => absurd h1 h⟩
      simp only [hx, hy, or_true, if_true, if_false, true_and]
      generalize convertTypes std v x = c1
      cases c1 with
      | error e1 => simp
      | ok p1 =>
        dsimp only
        generalize compareValues p1.1 p1.2 F64.ge = k1
        cases k1 <;> simp

/-- C28 amended, on the test suite's user of age 25: the bounds 20 and 30 are
both non-Null, and `age BETWEEN 20 AND 30` and `age >= 20 AND age <= 30` are
both true. -/
theorem between_vs_conjunction_witness :
    evaluateExpr goStd (mkUser (some 1) (some "张三") (some 25) none (some true))
      (.RangeCond BetweenStr (.ColName "age") (.SQLVal IntVal "20") (.SQLVal IntVal "30"))
      = .ok true ∧
    evaluateExpr goStd (mkUser (some 1) (some "张三") (some 25) none (some true))
      (.AndExpr (.ComparisonExpr ">=" (.ColName "age") (.SQLVal IntVal "20"))
        (.ComparisonExpr "<=" (.ColName "age") (.SQLVal IntVal "30"))) = .ok true ∧
    ((∃ e, evaluateExpr goStd (mkUser (some 1) (some "张三") (some 25) none (some true))
        (.RangeCond BetweenStr (.ColName "age") (.SQLVal IntVal "20") (.SQLVal IntVal "30"))
        = .error e) ↔
      (∃ e, evaluateExpr goStd (mkUser (some 1) (some "张三") (some 25) none (some true))
        (.AndExpr (.ComparisonExpr ">=" (.ColName "age") (.SQLVal IntVal "20"))
          (.ComparisonExpr "<=" (.ColName "age") (.SQLVal IntVal "30"))) = .error e)) :=
  ⟨rfl, rfl,
    ((between_vs_conjunction goStd (mkUser (some 1) (some "张三") (some 25) none (some true))
      (.ColName "age") (.SQLVal IntVal "20") (.SQLVal IntVal "30")).1
      (by
        intro field v x y _ _ _ ha hb
        have hx : x = .int 20 := by
          have h2 : getValue goStd (mkUser (some 1) (some "张三") (some 25) none (some true))
              (.SQLVal IntVal "20") = .ok (.int 20) := rfl
          rw [h2] at ha
          injection ha with h3
          exact h3.symm
        have hy : y = .int 30 := by
          have h2 : getValue goStd (mkUser (some 1) (some "张三") (some 25) none (some true))
              (.SQLVal IntVal "30") = .ok (.int 30) := rfl
          rw [h2] at hb
          injection hb with h3
          exact h3.symm
        subst hx hy
        simp)).1⟩

end SqlEvaluator
